import Mathlib

/-!
# Verification of the ASYCUDA export-declaration tool (data_model package)

Shallow embedding of the core resolution, validation and encoding logic of
the `asycuda_tool/data_model` Python package, together with proofs settling
the specification claims about it.

Python strings are embedded as `List Char`, Python `float` as `ℚ`, Python
`int` as `ℤ`, Python `dict` as insertion-ordered association lists with
update-in-place semantics, and `None`-able values as `Option`.
-/

/-- Embedded Python string: a list of characters. -/
abbrev Str := List Char

/-- Coerce a Lean string literal to the embedded string type. -/
def str (s : String) : Str := s.data

/-- Python `str.upper()` (per-character uppercasing). -/
def upper (s : Str) : Str := s.map Char.toUpper

/-- Drop leading whitespace (left half of Python `str.strip()`). -/
def stripL (s : Str) : Str := s.dropWhile Char.isWhitespace

/-- Drop trailing whitespace (right half of Python `str.strip()`). -/
def stripR (s : Str) : Str := (s.reverse.dropWhile Char.isWhitespace).reverse

/-- Python `str.strip()`: drop leading and trailing whitespace. -/
def strip (s : Str) : Str := stripR (stripL s)

/-- Python `needle in hay` on strings: contiguous-substring test. -/
def isSubstrB (needle : Str) : Str → Bool
  | [] => needle.isEmpty
  | c :: t => needle.isPrefixOf (c :: t) || isSubstrB needle t

/-- Python dict assignment `d[k] = v`: update in place if the key exists
(keeping its original position), otherwise append at the end. -/
def dinsert {α : Type} (k : Str) (v : α) : List (Str × α) → List (Str × α)
  | [] => [(k, v)]
  | (k', v') :: rest => if k' = k then (k', v) :: rest else (k', v') :: dinsert k v rest

/-- Python `d.get(k)`: value of the first (unique) entry with key `k`. -/
def dget {α : Type} (l : List (Str × α)) (k : Str) : Option α :=
  (l.find? (fun e => e.1 = k)).map (·.2)

/-- Python `str.replace('000000', '')`: remove non-overlapping runs of six
zeros, scanning left to right. -/
def rep0 : Str → Str
  | c1 :: c2 :: c3 :: c4 :: c5 :: c6 :: rest =>
    if c1 = '0' ∧ c2 = '0' ∧ c3 = '0' ∧ c4 = '0' ∧ c5 = '0' ∧ c6 = '0' then
      rep0 rest
    else
      c1 :: rep0 (c2 :: c3 :: c4 :: c5 :: c6 :: rest)
  | c :: cs => c :: rep0 cs
  | [] => []

/-- Decimal digit character (defined by cases so that membership in the
decimal alphabet is provable by case analysis). -/
def digitChar : Nat → Char
  | 0 => '0' | 1 => '1' | 2 => '2' | 3 => '3' | 4 => '4'
  | 5 => '5' | 6 => '6' | 7 => '7' | 8 => '8' | _ => '9'

/-- Decimal digits of a natural number, most significant first
(fuel-structured so the recursion is primitive). -/
def natDigitsAux : Nat → Nat → Str
  | 0, _ => []
  | fuel + 1, n => if n < 10 then [digitChar n] else natDigitsAux fuel (n / 10) ++ [digitChar (n % 10)]

/-- Model of Python `str(n)` for a natural number. -/
def natStr (n : Nat) : Str := natDigitsAux (n + 1) n

/-- Model of Python `str(n)` for an integer. -/
def intStr (n : Int) : Str := if n < 0 then '-' :: natStr n.natAbs else natStr n.natAbs

/-- Model of Python `str(x)` for a numeric value embedded as a rational:
numerator, a slash, denominator.  Stands in for float formatting; it uses
only digits, `-` and `/`, and is injective on `ℚ`. -/
def ratStr (q : ℚ) : Str := intStr q.num ++ '/' :: natStr q.den

/-- Python `int(x)` on a float: truncation toward zero. -/
def truncQ (q : ℚ) : Int := if 0 ≤ q then ⌊q⌋ else ⌈q⌉

section FuzzyMatcherDefs

/-- One row of the ANSE CHASTANET reference table, with every cell already
rendered as a string (the Python code applies `str(...)` to each cell before
use). -/
structure RefRow where
  description : Str
  hs_code : Str
  origin : Str
  office : Str
  product_code : Str
  c_nbr : Str
  line : Str

/-- The per-HS-code detail record stored by `FuzzyMatcher.load_reference_data`. -/
structure RefDetails where
  description : Str
  hs_code : Str
  origin : Str
  office : Str
  product_code : Str
  c_nbr : Str
  line : Str
deriving DecidableEq

/-- State of `FuzzyMatcher` (fuzzy_matcher.py): the three lookup tables. -/
structure FuzzyMatcher where
  description_to_hs : List (Str × Str)
  hs_to_details : List (Str × RefDetails)
  keyword_mappings : List (Str × Str)

/-- The static keyword table installed by
`FuzzyMatcher._initialize_keyword_mappings`, in source (insertion) order. -/
def keywordTable : List (Str × Str) :=
  [ (str "HAT", str "65040000"), (str "CAP", str "65040000"), (str "VISOR", str "65040000"),
    (str "SHIRT", str "62053000"), (str "POLO", str "62053000"),
    (str "PANT", str "62034990"), (str "SHORT", str "62034990"), (str "BERMUDA", str "62034990"),
    (str "SWIMSUIT", str "62111200"), (str "BIKINI", str "62111200"), (str "BATHING", str "62111200"),
    (str "BAG", str "42022900"), (str "CROSSBODY", str "42022900"),
    (str "SHOULDER BAG", str "42022900"), (str "CLUTCH", str "42022900"),
    (str "COSMETIC BAG", str "42023210"), (str "SANDAL", str "64052000"),
    (str "BRACELET", str "71179000"), (str "NECKLACE", str "71179000"),
    (str "EARRING", str "71179000"), (str "RING", str "71179000"),
    (str "SCRUNCHIE", str "96159000"), (str "SARONG", str "62114300"),
    (str "PAREO", str "62114300"), (str "DRESS", str "62044900"),
    (str "TUNIC", str "62064000"), (str "TOP", str "62064000"),
    (str "BOTTOM", str "62089290"), (str "RASHGUARD", str "62111200") ]

/-- Processing of one reference row inside
`FuzzyMatcher.load_reference_data`'s loop. -/
def FuzzyMatcher.loadRow (m : FuzzyMatcher) (r : RefRow) : FuzzyMatcher :=
  let description := upper (strip r.description)
  let hs_code := rep0 (strip r.hs_code)
  let origin := strip r.origin
  let office := strip r.office
  let product_code := strip r.product_code
  let c_nbr := strip r.c_nbr
  let line := strip r.line
  if description = [] ∨ hs_code = [] then m
  else
    let details : RefDetails :=
      ⟨description, hs_code, origin, office, product_code, c_nbr, line⟩
    let m1 := { m with
      description_to_hs := dinsert description hs_code m.description_to_hs }
    let m2 := { m1 with hs_to_details := dinsert hs_code details m1.hs_to_details }
    if product_code ≠ [] then
      { m2 with description_to_hs := dinsert (upper product_code) hs_code m2.description_to_hs }
    else m2

/-- `FuzzyMatcher.load_reference_data`: fold the rows into the lookup
tables, then install the static keyword table. -/
def FuzzyMatcher.load_reference_data (rows : List RefRow) : FuzzyMatcher :=
  { rows.foldl FuzzyMatcher.loadRow ⟨[], [], []⟩ with keyword_mappings := keywordTable }

/-- `FuzzyMatcher.exact_match`: normalized lookup in `description_to_hs`. -/
def FuzzyMatcher.exact_match (m : FuzzyMatcher) (description : Str) : Option Str :=
  if description = [] then none
  else dget m.description_to_hs (upper (strip description))

/-- `FuzzyMatcher.keyword_match`: first keyword (in table order) occurring
as a substring of the normalized description. -/
def FuzzyMatcher.keyword_match (m : FuzzyMatcher) (description : Str) : Option Str :=
  if description = [] then none
  else
    let d := upper (strip description)
    (m.keyword_mappings.find? (fun e => isSubstrB e.1 d)).map (·.2)

/-- Modelled from the spec: `fuzzywuzzy.process.extractOne` is an external
library routine; per §4.1 it scores the input against every candidate and
"pick[s] the single highest-scoring candidate", the "first-encountered
maximum win[ning]".  The scorer itself (`fuzz.token_sort_ratio`) is kept
abstract as a parameter. -/
def extractOne (scorer : Str → Str → ℚ) (d : Str) (keys : List Str) : Option (Str × ℚ) :=
  keys.foldl
    (fun best k =>
      match best with
      | none => some (k, scorer d k)
      | some (bk, bs) => if scorer d k > bs then some (k, scorer d k) else some (bk, bs))
    none

/-- `FuzzyMatcher.fuzzy_match`, primary path (fuzzywuzzy succeeds): best
candidate accepted only when its score reaches the threshold. -/
def FuzzyMatcher.fuzzy_match (scorer : Str → Str → ℚ) (m : FuzzyMatcher)
    (description : Str) (threshold : ℚ) : Option (Str × ℚ) :=
  if description = [] ∨ m.description_to_hs = [] then none
  else
    match extractOne scorer (upper (strip description)) (m.description_to_hs.map (·.1)) with
    | none => none
    | some (best, score) =>
      if score ≥ threshold then some ((dget m.description_to_hs best).getD [], score)
      else none

/-- One step of the difflib fallback scan of `FuzzyMatcher.fuzzy_match`:
keep the running best, replacing it only by a strictly better score that
also reaches the threshold. -/
def fbStep (scorer : Str → Str → ℚ) (d : Str) (threshold : ℚ)
    (st : ℚ × Option Str) (e : Str × Str) : ℚ × Option Str :=
  let score := scorer d e.1
  if score > st.1 ∧ score ≥ threshold then (score, some e.1) else st

/-- `FuzzyMatcher.fuzzy_match`, exception-fallback path (difflib scan):
running best over every entry, accepting only scores at or above the
threshold. -/
def FuzzyMatcher.fuzzy_match_fb (scorer : Str → Str → ℚ) (m : FuzzyMatcher)
    (description : Str) (threshold : ℚ) : Option (Str × ℚ) :=
  if description = [] ∨ m.description_to_hs = [] then none
  else
    match (m.description_to_hs.foldl (fbStep scorer (upper (strip description)) threshold)
        ((0 : ℚ), (none : Option Str))).2 with
    | none => none
    | some best =>
      some ((dget m.description_to_hs best).getD [],
        (m.description_to_hs.foldl (fbStep scorer (upper (strip description)) threshold)
          ((0 : ℚ), (none : Option Str))).1)

/-- The stop-word set removed by `FuzzyMatcher.token_match`. -/
def stop_words : List Str :=
  [str "AND", str "WITH", str "THE", str "OF", str "IN", str "FOR", str "TO", str "A", str "AN"]

/-- A `\w` word character of the regex `\b\w+\b` (ASCII reading). -/
def isWordChar (c : Char) : Bool := c.isAlphanum || c = '_'

/-- `re.findall(r'\b\w+\b', s)`: the maximal runs of word characters. -/
def wordsOf : Str → List Str
  | [] => []
  | c :: rest =>
    if isWordChar c then
      (c :: rest.takeWhile isWordChar) :: wordsOf (rest.dropWhile isWordChar)
    else wordsOf rest
termination_by s => s.length
decreasing_by
  · simp only [List.length_cons]
    exact Nat.lt_succ_of_le (List.IsSuffix.length_le (List.dropWhile_suffix isWordChar))
  · simp only [List.length_cons]
    exact Nat.lt_succ_self _

/-- The token set of a description: its words, deduplicated, with the stop
words removed (Python builds a `set`). -/
def tokensOf (s : Str) : List Str :=
  ((wordsOf s).dedup).filter (fun t => ¬ t ∈ stop_words)

/-- `FuzzyMatcher.token_match`: reference entry with the largest count of
common tokens, accepted when the count reaches the threshold (default 2);
the first strict maximum wins. -/
def FuzzyMatcher.token_match (m : FuzzyMatcher) (description : Str)
    (threshold : Nat := 2) : Option Str :=
  if description = [] ∨ m.description_to_hs = [] then none
  else
    let d := upper (strip description)
    let tokens := tokensOf d
    let final := m.description_to_hs.foldl
      (fun st e =>
        let common := ((tokensOf e.1).filter (fun t => t ∈ tokens)).length
        if common > st.1 ∧ common ≥ threshold then (common, some e.2) else st)
      ((0 : Nat), (none : Option Str))
    final.2

/-- `FuzzyMatcher._get_default_hs_code`: category-keyword fallback chain. -/
def FuzzyMatcher.get_default_hs_code (description : Str) : Str :=
  let d := upper description
  if [str "SHIRT", str "BLOUSE", str "TOP", str "TUNIC"].any (fun w => isSubstrB w d) then
    str "62053000"
  else if [str "PANT", str "SHORT", str "TROUSER"].any (fun w => isSubstrB w d) then
    str "62034990"
  else if [str "HAT", str "CAP", str "VISOR"].any (fun w => isSubstrB w d) then
    str "65040000"
  else if [str "BAG", str "PURSE", str "CLUTCH", str "CROSSBODY"].any (fun w => isSubstrB w d) then
    str "42022900"
  else if [str "SANDAL", str "SHOE", str "FOOTWEAR"].any (fun w => isSubstrB w d) then
    str "64052000"
  else if [str "BRACELET", str "NECKLACE", str "EARRING", str "RING",
      str "JEWELRY"].any (fun w => isSubstrB w d) then
    str "71179000"
  else if [str "SWIMSUIT", str "BIKINI", str "SWIM"].any (fun w => isSubstrB w d) then
    str "62111200"
  else str "71179000"

/-- Result record of `FuzzyMatcher.get_best_match`. -/
structure MatchResult where
  hs_code : Str
  method : Str
  confidence : ℚ
  details : Option RefDetails
deriving DecidableEq

/-- Stages of `get_best_match` after the exact stage (keyword, fuzzy,
token, default), in source order. -/
def FuzzyMatcher.after_exact (scorer : Str → Str → ℚ) (m : FuzzyMatcher)
    (ds : Str) : MatchResult :=
  match m.keyword_match ds with
  | some code =>
    if code = [] then
      match m.fuzzy_match scorer ds 80 with
      | some (hs_code, score) => ⟨hs_code, str "fuzzy", score, dget m.hs_to_details hs_code⟩
      | none =>
        match m.token_match ds with
        | some token =>
          if token = [] then ⟨FuzzyMatcher.get_default_hs_code ds, str "default", 30, none⟩
          else ⟨token, str "token", 60, dget m.hs_to_details token⟩
        | none => ⟨FuzzyMatcher.get_default_hs_code ds, str "default", 30, none⟩
    else ⟨code, str "keyword", 90, dget m.hs_to_details code⟩
  | none =>
    match m.fuzzy_match scorer ds 80 with
    | some (hs_code, score) => ⟨hs_code, str "fuzzy", score, dget m.hs_to_details hs_code⟩
    | none =>
      match m.token_match ds with
      | some token =>
        if token = [] then ⟨FuzzyMatcher.get_default_hs_code ds, str "default", 30, none⟩
        else ⟨token, str "token", 60, dget m.hs_to_details token⟩
      | none => ⟨FuzzyMatcher.get_default_hs_code ds, str "default", 30, none⟩

/-- `FuzzyMatcher.get_best_match`: resolution chain exact → keyword →
fuzzy → token → default, with Python truthiness of each stage's result
(`None` and the empty string both fall through). -/
def FuzzyMatcher.get_best_match (scorer : Str → Str → ℚ) (m : FuzzyMatcher)
    (description : Str) : MatchResult :=
  if description = [] then ⟨str "71179000", str "default", 0, none⟩
  else
    let ds := strip description
    match m.exact_match ds with
    | some code =>
      if code = [] then m.after_exact scorer ds
      else ⟨code, str "exact", 100, dget m.hs_to_details code⟩
    | none => m.after_exact scorer ds

end FuzzyMatcherDefs

section WeightEstimatorDefs

/-- A gross/net weight pair (kg). -/
structure Weights where
  gross : ℚ
  net : ℚ
deriving DecidableEq

/-- State of `WeightEstimator` (weight_estimator.py): the HS-prefix table
and the keyword table, both insertion-ordered. -/
structure WeightEstimator where
  default_weights : List (Str × Weights)
  keyword_weights : List (Str × Weights)

/-- The static default (`default_weights['default']`). -/
def WeightEstimator.staticDefault : Weights := ⟨3/10, 1/4⟩

/-- The static HS-prefix weight table from `WeightEstimator.__init__`,
in source (insertion) order, ending with the `'default'` entry. -/
def weightPrefixTable : List (Str × Weights) :=
  [ (str "6205", ⟨3/10, 1/4⟩), (str "6206", ⟨1/5, 3/20⟩), (str "6203", ⟨1/2, 9/20⟩),
    (str "6204", ⟨2/5, 7/20⟩), (str "6211", ⟨3/10, 1/4⟩), (str "6208", ⟨1/10, 2/25⟩),
    (str "6504", ⟨1/5, 3/20⟩), (str "4202", ⟨1/2, 9/20⟩), (str "6402", ⟨3/5, 1/2⟩),
    (str "6405", ⟨1/2, 2/5⟩), (str "7117", ⟨1/20, 3/100⟩),
    (str "default", WeightEstimator.staticDefault) ]

/-- The static keyword weight table from `WeightEstimator.__init__`,
in source (insertion) order. -/
def weightKeywordTable : List (Str × Weights) :=
  [ (str "SHIRT", ⟨3/10, 1/4⟩), (str "BLOUSE", ⟨1/5, 3/20⟩), (str "PANT", ⟨1/2, 9/20⟩),
    (str "SHORT", ⟨3/10, 1/4⟩), (str "DRESS", ⟨2/5, 7/20⟩), (str "SWIMSUIT", ⟨3/10, 1/4⟩),
    (str "BIKINI", ⟨1/5, 3/20⟩), (str "HAT", ⟨1/5, 3/20⟩), (str "CAP", ⟨1/5, 3/20⟩),
    (str "VISOR", ⟨3/20, 1/10⟩), (str "BAG", ⟨1/2, 9/20⟩), (str "CROSSBODY", ⟨2/5, 7/20⟩),
    (str "CLUTCH", ⟨3/10, 1/4⟩), (str "SANDAL", ⟨1/2, 2/5⟩), (str "SHOE", ⟨3/5, 1/2⟩),
    (str "BRACELET", ⟨1/20, 3/100⟩), (str "NECKLACE", ⟨1/20, 3/100⟩),
    (str "EARRING", ⟨1/50, 1/100⟩), (str "RING", ⟨1/50, 1/100⟩),
    (str "SCRUNCHIE", ⟨1/20, 3/100⟩), (str "SARONG", ⟨3/10, 1/4⟩), (str "PAREO", ⟨3/10, 1/4⟩),
    (str "TUNIC", ⟨3/10, 1/4⟩), (str "TOP", ⟨1/5, 3/20⟩), (str "BOTTOM", ⟨3/10, 1/4⟩),
    (str "RASHGUARD", ⟨3/10, 1/4⟩) ]

/-- The estimator as freshly constructed (`WeightEstimator.__init__`). -/
def WeightEstimator.static : WeightEstimator := ⟨weightPrefixTable, weightKeywordTable⟩

/-- The `self.default_weights['default']` lookup used as the fallback. -/
def WeightEstimator.edefault (w : WeightEstimator) : Weights :=
  (dget w.default_weights (str "default")).getD WeightEstimator.staticDefault

/-- One pass of the prefix scan: first table entry whose key starts with
the given code prefix (`mapping_prefix.startswith(prefix)`). -/
def prefixScan (tbl : List (Str × Weights)) (pfx : Str) : Option Weights :=
  (tbl.find? (fun e => pfx.isPrefixOf e.1)).map (·.2)

/-- `WeightEstimator.estimate_by_hs_code`: 4-character prefix scan, then
2-character prefix scan, then the static default. -/
def WeightEstimator.estimate_by_hs_code (w : WeightEstimator) (hs_code : Str) : Weights :=
  if hs_code = [] then w.edefault
  else
    match (if 4 ≤ hs_code.length then prefixScan w.default_weights (hs_code.take 4) else none) with
    | some ws => ws
    | none =>
      match (if 2 ≤ hs_code.length then prefixScan w.default_weights (hs_code.take 2) else none) with
      | some ws => ws
      | none => w.edefault

/-- `WeightEstimator.estimate_by_description`: first keyword of the
keyword table occurring in the uppercased description. -/
def WeightEstimator.estimate_by_description (w : WeightEstimator) (description : Str) : Weights :=
  if description = [] then w.edefault
  else
    match (w.keyword_weights.find? (fun e => isSubstrB e.1 (upper description))).map (·.2) with
    | some ws => ws
    | none => w.edefault

/-- `WeightEstimator.estimate_weights`: HS-code estimation when a code is
given, description-based estimation only when no code is given, otherwise
the static default; the result is scaled by the quantity. -/
def WeightEstimator.estimate_weights (w : WeightEstimator) (hs_code description : Str)
    (quantity : ℚ) : Weights :=
  let ws :=
    if hs_code ≠ [] then w.estimate_by_hs_code hs_code
    else if description ≠ [] then w.estimate_by_description description
    else w.edefault
  ⟨ws.gross * quantity, ws.net * quantity⟩

end WeightEstimatorDefs

section DocumentReferenceDefs

/-- State of `DocumentReferenceMapper` (document_reference.py). -/
structure DocumentReferenceMapper where
  product_to_document : List (Str × Str)
  description_to_document : List (Str × Str)
  hs_to_office : List (Str × Str)

/-- The static HS-prefix→office table from
`DocumentReferenceMapper.__init__`. -/
def hsOfficeTable : List (Str × Str) :=
  [ (str "42", str "LCCAP"), (str "62", str "LCVGC"), (str "64", str "LCVFP"),
    (str "65", str "LCCAP"), (str "71", str "LCCAP") ]

/-- The mapper as freshly constructed (`DocumentReferenceMapper.__init__`). -/
def DocumentReferenceMapper.empty : DocumentReferenceMapper := ⟨[], [], hsOfficeTable⟩

/-- `DocumentReferenceMapper._generate_default_reference`, with the current
year (read from the system clock in Python) passed as a parameter:
`"<office> <year> C <serial> art. <article>"` where office comes from the
2-character-prefix table (default `LCCAP`), serial is the code's last four
characters when it has at least six (else `10000`), and article is the
code's last two characters when it has at least four (else `1`). -/
def DocumentReferenceMapper.generate_default_reference (m : DocumentReferenceMapper)
    (year : Nat) (hs_code : Str) : Str :=
  let office :=
    if 2 ≤ hs_code.length then (dget m.hs_to_office (hs_code.take 2)).getD (str "LCCAP")
    else str "LCCAP"
  let ref_number :=
    if 6 ≤ hs_code.length then hs_code.drop (hs_code.length - 4) else str "10000"
  let article :=
    if 4 ≤ hs_code.length then hs_code.drop (hs_code.length - 2) else str "1"
  office ++ str " " ++ natStr year ++ str " C " ++ ref_number ++ str " art. " ++ article

/-- `DocumentReferenceMapper.get_document_reference` (with the current year
a parameter): product-code lookup, then exact then substring-overlap
description lookup, then the synthesized default for a given HS code, then
the fixed literal. -/
def DocumentReferenceMapper.get_document_reference (m : DocumentReferenceMapper)
    (year : Nat) (product_code description hs_code : Str) : Str :=
  let afterDescription :=
    if hs_code ≠ [] then m.generate_default_reference year hs_code
    else str "LCCAP 2025 C 10000 art. 1"
  let afterProduct :=
    if description ≠ [] then
      match dget m.description_to_document (upper description) with
      | some r => r
      | none =>
        match m.description_to_document.find?
            (fun e => isSubstrB e.1 (upper description) || isSubstrB (upper description) e.1) with
        | some e => e.2
        | none => afterDescription
    else afterDescription
  if product_code ≠ [] then
    match dget m.product_to_document (upper product_code) with
    | some r => r
    | none => afterProduct
  else afterProduct

end DocumentReferenceDefs

section DataModelDefs

/-- `Entity` (asycuda_data_model.py): a party such as exporter or declarant. -/
structure Entity where
  id : Str
  name : Str
  address_line1 : Str
  address_line2 : Option Str := none
  city : Str := []
  country : Str := str "LC"
deriving DecidableEq

/-- `Entity.validate`: raises (models as `Except.error`) on the first
failing check. -/
def Entity.validate (e : Entity) : Except Str Unit :=
  if e.id = [] ∨ e.name = [] ∨ e.address_line1 = [] then
    .error (str "Entity ID, name, and address are required")
  else if 20 < e.id.length then
    .error (str "Entity ID must be 20 characters or less")
  else .ok ()

/-- `Item` (asycuda_data_model.py): one declaration line.  Python floats
are embedded as `ℚ`, the int fields as `ℤ`. -/
structure Item where
  item_number : ℤ
  hs_code : Str
  description : Str
  country_of_origin : Str
  gross_weight : ℚ
  net_weight : ℚ
  statistical_unit : Str := str "NMB"
  quantity : ℚ := 1
  customs_value : ℚ := 0
  package_type : Str := str "PE"
  package_count : ℤ := 1
  marks_and_numbers : Str := str "NO MARKS"
  previous_document : Option Str := none
deriving DecidableEq

/-- The regex `^\d{6,10}$`: six to ten decimal digits. -/
def hsCodePat (s : Str) : Bool := 6 ≤ s.length && s.length ≤ 10 && s.all Char.isDigit

/-- The regex `^[A-Z]{2}$`: exactly two uppercase ASCII letters. -/
def countryPat (s : Str) : Bool :=
  s.length = 2 && s.all (fun c => 'A' ≤ c && c ≤ 'Z')

/-- `Item.validate`: the construction-time check chain; raises (models as
`Except.error`) at the first failing check, in source order. -/
def Item.validate (it : Item) : Except Str Unit :=
  if ¬ hsCodePat it.hs_code then
    .error (str "Invalid HS Code format: " ++ it.hs_code)
  else if ¬ countryPat it.country_of_origin then
    .error (str "Invalid country code: " ++ it.country_of_origin)
  else if it.gross_weight ≤ 0 then
    .error (str "Gross weight must be positive")
  else if it.net_weight ≤ 0 then
    .error (str "Net weight must be positive")
  else if it.gross_weight < it.net_weight then
    .error (str "Net weight cannot exceed gross weight")
  else if it.quantity ≤ 0 then
    .error (str "Quantity must be positive")
  else if it.package_count ≤ 0 then
    .error (str "Package count must be positive")
  else if it.description = [] ∨ it.description.length < 3 then
    .error (str "Description is required and must be meaningful")
  else .ok ()

/-- `Declaration` (asycuda_data_model.py).  The `date` field is embedded as
its `%d/%m/%Y`-rendered string (Python stores a `datetime`, which is never
`None`, so the header presence check on it cannot fire). -/
structure Declaration where
  registration_number : Str
  declaration_type : Str
  customs_office : Str
  exporter : Entity
  declarant : Entity
  general_procedure_code : Str := str "3071"
  extended_procedure_code : Str := str "113"
  country_of_destination : Str := str "VC"
  mode_of_transport : Str := str "VC"
  office_of_entry_exit : Str := str "LCHB"
  currency_code : Str := str "XCD"
  exchange_rate : ℚ := 1
  total_packages : ℤ := 0
  commercial_reference : Str := []
  date : Str
  valuation_method : Str := str "1"
  delivery_terms : Str := str "CIF"
  place_of_loading : Option Str := none
  manifest_reference : Option Str := none
  warehouse_identification : Option Str := none
  declarant_signature : Option Str := none
  items : List Item := []
deriving DecidableEq

/-- `Declaration.add_item`: items with a non-positive number are renumbered
to the next position; the running package total is updated. -/
def Declaration.add_item (d : Declaration) (it : Item) : Declaration :=
  let it' := if it.item_number ≤ 0 then { it with item_number := d.items.length + 1 } else it
  { d with items := d.items ++ [it'], total_packages := d.total_packages + it'.package_count }

/-- Result of `Declaration.calculate_totals`. -/
structure Totals where
  total_value : ℚ
  total_gross_weight : ℚ
  total_net_weight : ℚ
  total_packages : ℤ
  total_items : ℕ
deriving DecidableEq

/-- `Declaration.calculate_totals`: recompute the totals from the items. -/
def Declaration.calculate_totals (d : Declaration) : Totals :=
  { total_value := (d.items.map (·.customs_value)).sum
    total_gross_weight := (d.items.map (·.gross_weight)).sum
    total_net_weight := (d.items.map (·.net_weight)).sum
    total_packages := (d.items.map (·.package_count)).sum
    total_items := d.items.length }

/-- The regex `^\d{4}$`. -/
def fourDigitPat (s : Str) : Bool := s.length = 4 && s.all Char.isDigit

/-- The regex `^\d{3}$`. -/
def threeDigitPat (s : Str) : Bool := s.length = 3 && s.all Char.isDigit

/-- The item loop at the end of `Declaration.validate`: validate each item
in order, propagating the first raised error. -/
def validateItems : List Item → Except Str Unit
  | [] => .ok ()
  | it :: rest =>
    match it.validate with
    | .error e => .error e
    | .ok _ => validateItems rest

/-- `Declaration.validate`: the aggregate check chain; raises (models as
`Except.error`) at the first failing check, in source order. -/
def Declaration.validate (d : Declaration) : Except Str Unit :=
  if d.registration_number = [] then
    .error (str "Registration number is required")
  else if ¬ d.declaration_type ∈ [str "EX1", str "EX2", str "EX3"] then
    .error (str "Invalid declaration type: " ++ d.declaration_type)
  else if ¬ d.customs_office ∈ [str "LCVFP", str "LCHB", str "LCCAP", str "LCVGC"] then
    .error (str "Invalid customs office: " ++ d.customs_office)
  else
    match d.exporter.validate with
    | .error e => .error e
    | .ok _ =>
      match d.declarant.validate with
      | .error e => .error e
      | .ok _ =>
        if ¬ fourDigitPat d.general_procedure_code then
          .error (str "Invalid general procedure code: " ++ d.general_procedure_code)
        else if ¬ threeDigitPat d.extended_procedure_code then
          .error (str "Invalid extended procedure code: " ++ d.extended_procedure_code)
        else if ¬ d.country_of_destination ∈
            [str "US", str "ES", str "GB", str "CA", str "LC", str "VC"] then
          .error (str "Invalid country of destination: " ++ d.country_of_destination)
        else if ¬ d.mode_of_transport ∈
            [str "VC", str "AA", str "DL", str "BA", str "VS", str "BW"] then
          .error (str "Invalid mode of transport: " ++ d.mode_of_transport)
        else if d.items = [] then
          .error (str "Declaration must have at least one item")
        else
          validateItems d.items

end DataModelDefs

section ValidationDefs

/-- `ValidationResult` (validation.py): validity flag plus ordered error
and warning lists. -/
structure ValidationResult where
  is_valid : Bool
  errors : List Str
  warnings : List Str
deriving DecidableEq

/-- The no-argument constructor `ValidationResult()`. -/
def ValidationResult.empty : ValidationResult := ⟨true, [], []⟩

/-- `ValidationResult.add_error`: append the message and clear the flag. -/
def ValidationResult.add_error (r : ValidationResult) (e : Str) : ValidationResult :=
  { r with errors := r.errors ++ [e], is_valid := false }

/-- `ValidationResult.add_warning`: append the message (flag untouched). -/
def ValidationResult.add_warning (r : ValidationResult) (w : Str) : ValidationResult :=
  { r with warnings := r.warnings ++ [w] }

/-- `ValidationResult.merge`: conjoin the flags and concatenate both lists
(`self`'s entries first). -/
def ValidationResult.merge (r o : ValidationResult) : ValidationResult :=
  ⟨r.is_valid && o.is_valid, r.errors ++ o.errors, r.warnings ++ o.warnings⟩

/-- The results built from the no-argument constructor by `add_error`,
`add_warning` and `merge` alone (the mutation discipline of C10). -/
inductive BuiltVR : ValidationResult → Prop
  | empty : BuiltVR ValidationResult.empty
  | add_error (r : ValidationResult) (e : Str) : BuiltVR r → BuiltVR (r.add_error e)
  | add_warning (r : ValidationResult) (w : Str) : BuiltVR r → BuiltVR (r.add_warning w)
  | merge (r o : ValidationResult) : BuiltVR r → BuiltVR o → BuiltVR (r.merge o)

/-- The regex `^[A-Z0-9]+$`. -/
def regNumberPat (s : Str) : Bool :=
  ¬ s.isEmpty && s.all (fun c => ('A' ≤ c && c ≤ 'Z') || c.isDigit)

/-- The regex `^EX[1-3]$`. -/
def declTypePat (s : Str) : Bool :=
  s ∈ [str "EX1", str "EX2", str "EX3"]

/-- The regex `^LC[A-Z]{2,3}$`. -/
def customsOfficePat (s : Str) : Bool :=
  (s.take 2 = str "LC") && (s.length = 4 || s.length = 5)
    && (s.drop 2).all (fun c => 'A' ≤ c && c ≤ 'Z')

/-- The regex `^[A-Z]{3}$`. -/
def currencyPat (s : Str) : Bool :=
  s.length = 3 && s.all (fun c => 'A' ≤ c && c ≤ 'Z')

/-- `FieldValidator.validate_length` at a field with a known maximum. -/
def validate_length (field : Str) (maxLen : Nat) (value : Str) : ValidationResult :=
  if maxLen < value.length then
    ValidationResult.empty.add_error
      (str "Field '" ++ field ++ str "' exceeds maximum length of " ++ natStr maxLen
        ++ str " characters")
  else ValidationResult.empty

/-- `FieldValidator.validate_pattern` at a named pattern. -/
def validate_pattern (patName : Str) (pat : Str → Bool) (value : Str) : ValidationResult :=
  if ¬ pat value then
    ValidationResult.empty.add_error
      (str "Value '" ++ value ++ str "' does not match required pattern for " ++ patName)
  else ValidationResult.empty

/-- `FieldValidator.validate_numeric` at an embedded numeric value (the
`float(...)` conversion always succeeds on a number). -/
def validate_numeric (field : Str) (value : ℚ) : ValidationResult :=
  if value < 0 then
    ValidationResult.empty.add_error
      (str "Field '" ++ field ++ str "' must be a positive number")
  else ValidationResult.empty

/-- The "required field missing" error of the engine's presence loops. -/
def missingErr (field ctx : Str) : Str :=
  str "Required field '" ++ field ++ str "' is missing" ++ ctx

/-- Modelled from the spec: the source of `DeclarationValidator._validate_item`
is cut off in the middle of its final cross-field check (`if item.net…`), so
the message it records is not in the provided source; per §4.6 the check is
"net weight must not exceed gross weight (separate explicit error …)". -/
def netExceedsGrossMsg (n : ℕ) : Str :=
  str "Net weight cannot exceed gross weight for item " ++ natStr n

/-- `DeclarationValidator._validate_item`: presence loop, format checks,
numeric checks and (spec-modelled, see `netExceedsGrossMsg`) the final
cross-field net-vs-gross check; never short-circuits.  The numeric
dataclass fields can be neither `None` nor `''`, so only the string-typed
required fields can fire the presence loop. -/
def validate_item (it : Item) (n : ℕ) : ValidationResult :=
  let ctx := str " for item " ++ natStr n
  let r0 := ValidationResult.empty
  let r1 := if it.hs_code = [] then r0.add_error (missingErr (str "hs_code") ctx) else r0
  let r2 := if it.description = [] then r1.add_error (missingErr (str "description") ctx) else r1
  let r3 := if it.country_of_origin = [] then
      r2.add_error (missingErr (str "country_of_origin") ctx) else r2
  let r4 := if it.statistical_unit = [] then
      r3.add_error (missingErr (str "statistical_unit") ctx) else r3
  let r5 := if it.package_type = [] then
      r4.add_error (missingErr (str "package_type") ctx) else r4
  let r6 := if it.hs_code ≠ [] then
      r5.merge (validate_pattern (str "hs_code") hsCodePat it.hs_code) else r5
  let r7 := if it.description ≠ [] then
      r6.merge (validate_length (str "description") 280 it.description) else r6
  let r8 := if it.country_of_origin ≠ [] then
      r7.merge (validate_pattern (str "country_code") countryPat it.country_of_origin) else r7
  let r9 := r8.merge (validate_numeric (str "gross_weight") it.gross_weight)
  let r10 := r9.merge (validate_numeric (str "net_weight") it.net_weight)
  let r11 := r10.merge (validate_numeric (str "quantity") it.quantity)
  let r12 := r11.merge (validate_numeric (str "customs_value") it.customs_value)
  let r13 := r12.merge (validate_numeric (str "package_count") (it.package_count : ℚ))
  if it.gross_weight < it.net_weight then r13.add_error (netExceedsGrossMsg n) else r13

/-- `DeclarationValidator._validate_header`: presence loop over the
required header fields (the `exchange_rate` float and `date` datetime can
be neither `None` nor `''`), the guarded format checks, and the
at-least-one-item check; never short-circuits. -/
def validate_header (d : Declaration) : ValidationResult :=
  let r0 := ValidationResult.empty
  let r1 := if d.registration_number = [] then
      r0.add_error (missingErr (str "registration_number") []) else r0
  let r2 := if d.declaration_type = [] then
      r1.add_error (missingErr (str "declaration_type") []) else r1
  let r3 := if d.customs_office = [] then
      r2.add_error (missingErr (str "customs_office") []) else r2
  let r4 := if d.general_procedure_code = [] then
      r3.add_error (missingErr (str "general_procedure_code") []) else r3
  let r5 := if d.extended_procedure_code = [] then
      r4.add_error (missingErr (str "extended_procedure_code") []) else r4
  let r6 := if d.country_of_destination = [] then
      r5.add_error (missingErr (str "country_of_destination") []) else r5
  let r7 := if d.mode_of_transport = [] then
      r6.add_error (missingErr (str "mode_of_transport") []) else r6
  let r8 := if d.office_of_entry_exit = [] then
      r7.add_error (missingErr (str "office_of_entry_exit") []) else r7
  let r9 := if d.currency_code = [] then
      r8.add_error (missingErr (str "currency_code") []) else r8
  let r10 := if d.registration_number ≠ [] then
      (r9.merge (validate_length (str "registration_number") 20 d.registration_number)).merge
        (validate_pattern (str "registration_number") regNumberPat d.registration_number)
    else r9
  let r11 := if d.declaration_type ≠ [] then
      r10.merge (validate_pattern (str "declaration_type") declTypePat d.declaration_type)
    else r10
  let r12 := if d.customs_office ≠ [] then
      r11.merge (validate_pattern (str "customs_office") customsOfficePat d.customs_office)
    else r11
  let r13 := if d.general_procedure_code ≠ [] then
      r12.merge
        (validate_pattern (str "general_procedure_code") fourDigitPat d.general_procedure_code)
    else r12
  let r14 := if d.extended_procedure_code ≠ [] then
      r13.merge
        (validate_pattern (str "extended_procedure_code") threeDigitPat d.extended_procedure_code)
    else r13
  let r15 := if d.country_of_destination ≠ [] then
      r14.merge (validate_pattern (str "country_code") countryPat d.country_of_destination)
    else r14
  let r16 := if d.currency_code ≠ [] then
      r15.merge (validate_pattern (str "currency_code") currencyPat d.currency_code)
    else r15
  let r17 := r16.merge (validate_numeric (str "exchange_rate") d.exchange_rate)
  if d.items = [] then r17.add_error (str "Declaration must have at least one item") else r17

/-- `DeclarationValidator._validate_entity`: presence loop, length checks
and the country-code pattern; never short-circuits. -/
def validate_entity (e : Entity) (entity_type : Str) : ValidationResult :=
  let ctx := str " for " ++ entity_type
  let r0 := ValidationResult.empty
  let r1 := if e.id = [] then r0.add_error (missingErr (str "id") ctx) else r0
  let r2 := if e.name = [] then r1.add_error (missingErr (str "name") ctx) else r1
  let r3 := if e.address_line1 = [] then
      r2.add_error (missingErr (str "address_line1") ctx) else r2
  let r4 := if e.id ≠ [] then
      r3.merge (validate_length (entity_type ++ str "_id") 20 e.id) else r3
  let r5 := if e.name ≠ [] then
      r4.merge (validate_length (entity_type ++ str "_name") 70 e.name) else r4
  if e.country ≠ [] then
    r5.merge (validate_pattern (str "country_code") countryPat e.country)
  else r5

/-- `DeclarationValidator.validate_declaration`, parameterised by the
`_validate_consistency` sub-check, whose body is cut off from the provided
source (the parameter stands for an arbitrary behaviour of it): merge of
header, exporter, declarant, per-item and consistency results. -/
def validate_declaration (consistency : Declaration → ValidationResult)
    (d : Declaration) : ValidationResult :=
  let r := validate_header d
  let r := r.merge (validate_entity d.exporter (str "exporter"))
  let r := r.merge (validate_entity d.declarant (str "declarant"))
  let r := (List.enumFrom 1 d.items).foldl (fun acc p => acc.merge (validate_item p.2 p.1)) r
  r.merge (consistency d)

end ValidationDefs

section FieldMapperDefs

/-- One row of the sales table as consumed by
`FieldMapper.map_sales_to_declaration`; `none` embeds a `NaN`/absent cell
(`pd.isna`). -/
structure SalesRow where
  item_sold : Option Str
  df_us : Option ℚ
  bar_code : Option Str
  number : Option ℚ
deriving DecidableEq

/-- Result of `HSCodeLookup.lookup_hs_code` as consumed by the row loop:
the resolved code and the optional origin of its detail record. -/
structure LookupResult where
  hs_code : Str
  origin : Option Str
deriving DecidableEq

/-- The row-retention test of the loop: a row is processed only when both
`ITEM SOLD ` and `DF US$` are present. -/
def keepRow (r : SalesRow) : Bool := r.item_sold.isSome && r.df_us.isSome

/-- The item built from a retained sales row at original (0-based) row
index `idx`, with the three resolver components passed as parameters
(`lookup` for `HSCodeLookup.lookup_hs_code`, `estimate` for
`WeightEstimator.estimate_weights`, `docref` for
`DocumentReferenceMapper.get_document_reference`). -/
def mkSalesItem (lookup : Str → LookupResult) (estimate : Str → Str → ℚ → Weights)
    (docref : Str → Str → Str → Str) (idx : ℕ) (r : SalesRow) : Item :=
  let description := strip (r.item_sold.getD [])
  let bar_code := strip (r.bar_code.getD [])
  let value := r.df_us.getD 0
  let quantity := r.number.getD 1
  let hs_match := lookup description
  let origin := hs_match.origin.getD (str "US")
  let weights := estimate hs_match.hs_code description quantity
  let prev := docref bar_code description hs_match.hs_code
  { item_number := (idx : ℤ) + 1
    hs_code := hs_match.hs_code
    description := description
    country_of_origin := origin
    gross_weight := weights.gross
    net_weight := weights.net
    statistical_unit := str "NMB"
    quantity := quantity
    customs_value := value
    package_type := str "PE"
    package_count := truncQ quantity
    marks_and_numbers := str "NO MARKS"
    previous_document := some prev }

/-- The row loop of `FieldMapper.map_sales_to_declaration` over the
index-annotated rows: skipped rows leave the declaration unchanged,
retained rows are appended through `Declaration.add_item`. -/
def mapSalesAux (lookup : Str → LookupResult) (estimate : Str → Str → ℚ → Weights)
    (docref : Str → Str → Str → Str) :
    List (ℕ × SalesRow) → Declaration → Declaration
  | [], d => d
  | (idx, r) :: rest, d =>
    mapSalesAux lookup estimate docref rest
      (if keepRow r then d.add_item (mkSalesItem lookup estimate docref idx r) else d)

/-- `FieldMapper.map_sales_to_declaration`: a fresh declaration populated
with the `FieldMapper` defaults, then the row loop (the `date` string
parameter embeds `datetime.now()`; resolvers are parameters as in
`mkSalesItem`). -/
def map_sales_to_declaration (lookup : Str → LookupResult)
    (estimate : Str → Str → ℚ → Weights) (docref : Str → Str → Str → Str)
    (rows : List SalesRow) (exporter declarant : Entity)
    (registration_number : Str) (commercial_reference : Option Str)
    (dateStr : Str) : Declaration :=
  mapSalesAux lookup estimate docref rows.enum
    { registration_number := registration_number
      declaration_type := str "EX3"
      customs_office := str "LCVFP"
      exporter := exporter
      declarant := declarant
      general_procedure_code := str "3071"
      extended_procedure_code := str "113"
      country_of_destination := str "VC"
      mode_of_transport := str "VC"
      office_of_entry_exit := str "LCHB"
      currency_code := str "XCD"
      exchange_rate := 1
      valuation_method := str "1"
      delivery_terms := str "CIF"
      commercial_reference := commercial_reference.getD []
      date := dateStr }

end FieldMapperDefs

section PipeDelimitedDefs

/-- The characters that force quoting under `csv.QUOTE_MINIMAL` with a
`|` delimiter and the default `\r\n` line terminator. -/
def isSpecialChar (c : Char) : Bool := c = '|' || c = '"' || c = '\r' || c = '\n'

/-- Double every quote character (CSV quote escaping). -/
def escQ : Str → Str
  | [] => []
  | c :: cs => if c = '"' then '"' :: '"' :: escQ cs else c :: escQ cs

/-- One CSV field as written by `csv.writer` under `QUOTE_MINIMAL`:
quoted (with doubled inner quotes) exactly when it contains a special
character. -/
def writeField (f : Str) : Str :=
  if f.any isSpecialChar then '"' :: (escQ f ++ ['"']) else f

/-- The body of one CSV row: fields joined by `|`. -/
def writeRowBody : List Str → Str
  | [] => []
  | [f] => writeField f
  | f :: g :: fs => writeField f ++ '|' :: writeRowBody (g :: fs)

/-- One CSV row including the `\r\n` terminator. -/
def writeRow (fs : List Str) : Str := writeRowBody fs ++ ['\r', '\n']

/-- A sequence of CSV rows. -/
def genRows (rows : List (List Str)) : Str := (rows.map writeRow).flatten

/-- Scanner state of the CSV reader: start of a field, inside an unquoted
field, inside a quoted field, or just past a closing quote. -/
inductive PState where
  | fs
  | unq
  | inQ
  | afterQ
deriving DecidableEq

/-- Quote-aware CSV reader for `|`-delimited, `\r\n`-terminated rows
(the re-parse direction of the round-trip claim): `fa` accumulates the
current field, `ra` the current row. -/
def scan : Str → PState → Str → List Str → List (List Str)
  | [], st, fa, ra =>
    match st with
    | .fs => if ra = [] then [] else [ra ++ [[]]]
    | _ => [ra ++ [fa]]
  | c :: rest, st, fa, ra =>
    match st with
    | .fs =>
      if c = '"' then scan rest .inQ [] ra
      else if c = '|' then scan rest .fs [] (ra ++ [[]])
      else if c = '\r' then
        match h : rest with
        | [] => scan rest .unq [c] ra
        | c2 :: rest2 =>
          if c2 = '\n' then
            if ra = [] then scan rest2 .fs [] [] else (ra ++ [[]]) :: scan rest2 .fs [] []
          else scan rest .unq [c] ra
      else scan rest .unq [c] ra
    | .unq =>
      if c = '|' then scan rest .fs [] (ra ++ [fa])
      else if c = '\r' then
        match h : rest with
        | [] => scan rest .unq (fa ++ [c]) ra
        | c2 :: rest2 =>
          if c2 = '\n' then (ra ++ [fa]) :: scan rest2 .fs [] []
          else scan rest .unq (fa ++ [c]) ra
      else scan rest .unq (fa ++ [c]) ra
    | .inQ =>
      if c = '"' then
        match h : rest with
        | [] => [ra ++ [fa]]
        | c2 :: rest2 =>
          if c2 = '"' then scan rest2 .inQ (fa ++ [c]) ra
          else scan rest .afterQ fa ra
      else scan rest .inQ (fa ++ [c]) ra
    | .afterQ =>
      if c = '|' then scan rest .fs [] (ra ++ [fa])
      else if c = '\r' then
        match h : rest with
        | [] => scan rest .unq (fa ++ [c]) ra
        | c2 :: rest2 =>
          if c2 = '\n' then (ra ++ [fa]) :: scan rest2 .fs [] []
          else scan rest .unq (fa ++ [c]) ra
      else scan rest .unq (fa ++ [c]) ra
termination_by s _ _ _ => s.length
decreasing_by all_goals simp_all [List.length_cons] <;> omega

/-- Parse a CSV document into its rows of fields. -/
def parseCsv (s : Str) : List (List Str) := scan s .fs [] []

/-- The 27 header-row cells written by `PipeDelimitedGenerator.generate`
(numbers rendered through the `str(...)` model `ratStr`/`intStr`). -/
def headerFields (d : Declaration) : List Str :=
  [ str "H", d.registration_number, d.declaration_type, d.customs_office, d.date,
    d.exporter.id, d.exporter.name, d.exporter.address_line1, d.exporter.city,
    d.exporter.country, d.declarant.id, d.declarant.name,
    d.general_procedure_code, d.extended_procedure_code, d.country_of_destination,
    d.mode_of_transport, d.office_of_entry_exit, d.currency_code,
    ratStr d.exchange_rate, intStr d.total_packages, d.commercial_reference,
    d.valuation_method, d.delivery_terms, d.place_of_loading.getD [],
    d.manifest_reference.getD [], d.warehouse_identification.getD [],
    d.declarant_signature.getD [] ]

/-- The 14 item-row cells written by `PipeDelimitedGenerator.generate`. -/
def itemFields (it : Item) : List Str :=
  [ str "I", intStr it.item_number, it.hs_code, it.description, it.country_of_origin,
    ratStr it.gross_weight, ratStr it.net_weight, it.statistical_unit,
    ratStr it.quantity, ratStr it.customs_value, it.package_type,
    intStr it.package_count, it.marks_and_numbers, it.previous_document.getD [] ]

/-- `PipeDelimitedGenerator.generate`: one `H` row, then one `I` row per
item in list order. -/
def PipeDelimitedGenerator.generate (d : Declaration) : Str :=
  genRows (headerFields d :: d.items.map itemFields)

end PipeDelimitedDefs


section ConcreteInstances

/-- A trivially constant similarity scorer (stands for an arbitrary
`token_sort_ratio` in witnesses). -/
def scorer0 : Str → Str → ℚ := fun _ _ => 0

/-- A one-row reference table used by witnesses. -/
def c2rows : List RefRow :=
  [⟨str " Straw Hat ", str "650400", str "US", str "LCCAP", str "", str "123", str "4"⟩]

/-- A well-formed entity used by witnesses. -/
def entOK : Entity :=
  { id := str "E1", name := str "EXPORTER LTD", address_line1 := str "1 BAY ST",
    city := str "CASTRIES", country := str "LC" }

/-- A well-formed item used by witnesses. -/
def itemOK : Item :=
  { item_number := 1, hs_code := str "65040000", description := str "STRAW HAT",
    country_of_origin := str "US", gross_weight := 1/5, net_weight := 3/20,
    quantity := 1, customs_value := 25, package_count := 1 }

/-- An item whose net weight exceeds its gross weight but whose other
fields are well-formed. -/
def itemNG : Item := { itemOK with gross_weight := 1, net_weight := 2 }

/-- An item whose net weight exceeds its gross weight and whose HS code is
also malformed. -/
def itemBadNG : Item := { itemNG with hs_code := str "X" }

/-- A declaration with a fully valid header and entities but no items. -/
def declNoItems : Declaration :=
  { registration_number := str "A2025", declaration_type := str "EX3",
    customs_office := str "LCVFP", exporter := entOK, declarant := entOK,
    date := str "01/01/2025", items := [] }

/-- A declaration with no items and an empty registration number. -/
def declBad : Declaration := { declNoItems with registration_number := [] }

/-- A constant HS-code resolver used in concrete runs of the row loop. -/
def lookup0 : Str → LookupResult := fun _ => ⟨str "65040000", none⟩

/-- A constant weight estimator used in concrete runs of the row loop. -/
def estimate0 : Str → Str → ℚ → Weights := fun _ _ _ => ⟨1/5, 3/20⟩

/-- A constant document-reference resolver used in concrete runs of the
row loop. -/
def docref0 : Str → Str → Str → Str := fun _ _ _ => str "LCCAP 2025 C 10000 art. 1"

/-- Two sales rows, the first unusable (missing description and value),
the second retained. -/
def salesRows0 : List SalesRow :=
  [⟨none, none, none, none⟩, ⟨some (str "STRAW HAT"), some 25, none, none⟩]

/-- A constant scorer valuing every candidate at 90. -/
def scorer90 : Str → Str → ℚ := fun _ _ => 90

end ConcreteInstances

/-! ## Helper lemmas: normalization and the loaded tables -/

theorem dropWhile_dropWhile {α : Type} (p : α → Bool) (l : List α) :
    (l.dropWhile p).dropWhile p = l.dropWhile p := by
  induction l with
  | nil => simp
  | cons a t ih =>
    by_cases h : p a <;> simp [List.dropWhile_cons, h, ih]

theorem stripL_idem (s : Str) : stripL (stripL s) = stripL s :=
  dropWhile_dropWhile _ s

theorem stripR_idem (s : Str) : stripR (stripR s) = stripR s := by
  simp [stripR, dropWhile_dropWhile]

theorem dropWhile_of_head {α : Type} (p : α → Bool) (x : List α)
    (h : ∀ c, x.head? = some c → p c = false) : x.dropWhile p = x := by
  cases x with
  | nil => simp
  | cons a t => simp [List.dropWhile_cons, h a rfl]

theorem head?_of_stripR (x : Str) (c : Char) (h : (stripR x).head? = some c) :
    x.head? = some c := by
  have hpre : stripR x <+: x := by
    have h1 := List.IsSuffix.reverse (List.dropWhile_suffix (l := x.reverse) Char.isWhitespace)
    simpa [stripR] using h1
  obtain ⟨t, ht⟩ := hpre
  cases hx : stripR x with
  | nil => rw [hx] at h; simp at h
  | cons a u =>
    rw [hx] at h ht
    simp at h
    subst h
    rw [← ht]
    rfl

theorem stripL_stripR (x : Str) (hx : stripL x = x) :
    stripL (stripR x) = stripR x := by
  cases hh : (stripR x).head? with
  | none =>
    have hnil : stripR x = [] := by
      cases hsr : stripR x with
      | nil => rfl
      | cons a u => rw [hsr] at hh; simp at hh
    simp [stripL, hnil]
  | some c =>
    have hxc : x.head? = some c := head?_of_stripR x c hh
    have hpc : Char.isWhitespace c = false := by
      cases hxs : x with
      | nil => rw [hxs] at hxc; simp at hxc
      | cons a t =>
        rw [hxs] at hxc
        have hac : a = c := by simpa using hxc
        have hxx := hx
        rw [hxs] at hxx
        cases hb : Char.isWhitespace a with
        | false => rw [← hac]; exact hb
        | true =>
          exfalso
          simp only [stripL, List.dropWhile_cons, hb, if_true] at hxx
          have hle := List.IsSuffix.length_le (List.dropWhile_suffix (l := t) Char.isWhitespace)
          rw [hxx] at hle
          simp at hle
    refine dropWhile_of_head _ _ (fun c' hc' => ?_)
    rw [hh] at hc'
    have hcc := Option.some.inj hc'
    rw [← hcc]
    exact hpc

theorem strip_idem (s : Str) : strip (strip s) = strip s := by
  have h1 : stripL (stripR (stripL s)) = stripR (stripL s) :=
    stripL_stripR (stripL s) (stripL_idem s)
  calc strip (strip s) = stripR (stripL (stripR (stripL s))) := rfl
    _ = stripR (stripR (stripL s)) := by rw [h1]
    _ = stripR (stripL s) := stripR_idem _
    _ = strip s := rfl

theorem upper_eq_nil_iff (s : Str) : upper s = [] ↔ s = [] := by
  simp [upper]

theorem dget_mem {α : Type} (t : List (Str × α)) (k : Str) (v : α)
    (h : dget t k = some v) : (k, v) ∈ t := by
  unfold dget at h
  cases hf : t.find? (fun e => e.1 = k) with
  | none => rw [hf] at h; simp at h
  | some e =>
    rw [hf] at h
    simp at h
    have hmem := List.mem_of_find?_eq_some hf
    have hk := List.find?_some hf
    cases e with
    | mk k' v' =>
      simp at hk h
      subst hk
      subst h
      exact hmem

theorem dinsert_forall {α : Type} (P : Str × α → Prop) (k : Str) (v : α)
    (t : List (Str × α)) (ht : ∀ e ∈ t, P e) (hkv : P (k, v)) :
    ∀ e ∈ dinsert k v t, P e := by
  induction t with
  | nil => simpa [dinsert]
  | cons a rest ih =>
    intro e he
    rw [dinsert] at he
    by_cases hk : a.1 = k
    · rw [if_pos hk] at he
      rcases List.mem_cons.mp he with he2 | he2
      · subst he2
        rw [hk]
        exact hkv
      · exact ht e (List.mem_cons_of_mem _ he2)
    · rw [if_neg hk] at he
      rcases List.mem_cons.mp he with he2 | he2
      · subst he2; exact ht a (List.mem_cons_self _ _)
      · exact ih (fun e2 he3 => ht e2 (List.mem_cons_of_mem _ he3)) e he2

theorem loadRow_good (m : FuzzyMatcher) (r : RefRow)
    (hm : ∀ e ∈ m.description_to_hs, e.1 ≠ ([] : Str) ∧ e.2 ≠ ([] : Str)) :
    ∀ e ∈ (m.loadRow r).description_to_hs, e.1 ≠ ([] : Str) ∧ e.2 ≠ ([] : Str) := by
  unfold FuzzyMatcher.loadRow
  by_cases hg : upper (strip r.description) = [] ∨ rep0 (strip r.hs_code) = []
  · rw [if_pos hg]; exact hm
  · rw [if_neg hg]
    push_neg at hg
    by_cases hp : strip r.product_code = []
    · rw [if_neg (fun hc => hc hp)]
      exact dinsert_forall _ _ _ _ hm ⟨hg.1, hg.2⟩
    · rw [if_pos hp]
      refine dinsert_forall _ _ _ _ (dinsert_forall _ _ _ _ hm ⟨hg.1, hg.2⟩) ?_
      refine ⟨?_, hg.2⟩
      intro habs
      exact hp ((upper_eq_nil_iff _).mp habs)

theorem load_good (rows : List RefRow) :
    ∀ e ∈ (FuzzyMatcher.load_reference_data rows).description_to_hs,
      e.1 ≠ ([] : Str) ∧ e.2 ≠ ([] : Str) := by
  unfold FuzzyMatcher.load_reference_data
  suffices h : ∀ (init : FuzzyMatcher),
      (∀ e ∈ init.description_to_hs, e.1 ≠ ([] : Str) ∧ e.2 ≠ ([] : Str)) →
      ∀ e ∈ (rows.foldl FuzzyMatcher.loadRow init).description_to_hs,
        e.1 ≠ ([] : Str) ∧ e.2 ≠ ([] : Str) by
    exact h ⟨[], [], []⟩ (by simp)
  induction rows with
  | nil => intro init h; simpa using h
  | cons r rest ih =>
    intro init h
    exact ih (init.loadRow r) (loadRow_good init r h)

theorem load_keywords (rows : List RefRow) :
    (FuzzyMatcher.load_reference_data rows).keyword_mappings = keywordTable := rfl

/-! ## C2: exact reference-table matches -/

/-- C2: for every description whose strip-and-uppercase normalization the
loaded reference table maps to a code, `FuzzyMatcher.get_best_match`
returns exactly that code with confidence 100 and method "exact". -/
theorem c2_exact_match (rows : List RefRow) (scorer : Str → Str → ℚ) (d code : Str)
    (h : dget (FuzzyMatcher.load_reference_data rows).description_to_hs
      (upper (strip d)) = some code) :
    (FuzzyMatcher.get_best_match scorer (FuzzyMatcher.load_reference_data rows) d).hs_code
        = code ∧
      (FuzzyMatcher.get_best_match scorer (FuzzyMatcher.load_reference_data rows) d).method
        = str "exact" ∧
      (FuzzyMatcher.get_best_match scorer (FuzzyMatcher.load_reference_data rows) d).confidence
        = 100 := by
  have hmem := dget_mem _ _ _ h
  have hgood := load_good rows (upper (strip d), code) hmem
  have hkey : upper (strip d) ≠ [] := hgood.1
  have hcode : code ≠ [] := hgood.2
  have hsd : ¬ strip d = [] := fun hs => hkey (by rw [hs]; rfl)
  have hd : ¬ d = [] := fun hd0 => hsd (by rw [hd0]; rfl)
  have hex : (FuzzyMatcher.load_reference_data rows).exact_match (strip d) = some code := by
    rw [FuzzyMatcher.exact_match, if_neg hsd, strip_idem]
    exact h
  simp only [FuzzyMatcher.get_best_match, if_neg hd]
  rw [hex]
  simp [hcode]

/-- Witness for C2 at a concrete table and description. -/
theorem c2_exact_match_witness :
    (FuzzyMatcher.get_best_match scorer0 (FuzzyMatcher.load_reference_data c2rows)
        (str "straw hat")).hs_code = str "650400" ∧
      (FuzzyMatcher.get_best_match scorer0 (FuzzyMatcher.load_reference_data c2rows)
        (str "straw hat")).method = str "exact" ∧
      (FuzzyMatcher.get_best_match scorer0 (FuzzyMatcher.load_reference_data c2rows)
        (str "straw hat")).confidence = 100 :=
  c2_exact_match c2rows scorer0 (str "straw hat") (str "650400") (by decide)

/-! ## C3: keyword matches, first table entry wins -/

/-- C3: for every description absent from the loaded reference table whose
normalization contains a keyword of the keyword table, and for the first
such table entry (`find?` respects table order), `get_best_match` returns
that entry's code with method "keyword" and confidence 90. -/
theorem c3_keyword_match (rows : List RefRow) (scorer : Str → Str → ℚ) (d : Str)
    (entry : Str × Str)
    (hx : dget (FuzzyMatcher.load_reference_data rows).description_to_hs
      (upper (strip d)) = none)
    (hk : keywordTable.find? (fun e => isSubstrB e.1 (upper (strip d))) = some entry) :
    (FuzzyMatcher.get_best_match scorer (FuzzyMatcher.load_reference_data rows) d).hs_code
        = entry.2 ∧
      (FuzzyMatcher.get_best_match scorer (FuzzyMatcher.load_reference_data rows) d).method
        = str "keyword" ∧
      (FuzzyMatcher.get_best_match scorer (FuzzyMatcher.load_reference_data rows) d).confidence
        = 90 := by
  have hmem := List.mem_of_find?_eq_some hk
  have hpred := List.find?_some hk
  have htbl : ∀ e ∈ keywordTable, e.1 ≠ ([] : Str) ∧ e.2 ≠ ([] : Str) := by decide
  have hkw_ne : entry.1 ≠ [] := (htbl entry hmem).1
  have hent2 : entry.2 ≠ [] := (htbl entry hmem).2
  have hdu_ne : upper (strip d) ≠ [] := by
    intro habs
    rw [habs] at hpred
    simp [isSubstrB, List.isEmpty_iff] at hpred
    exact hkw_ne hpred
  have hsd : ¬ strip d = [] := fun hs => hdu_ne (by rw [hs]; rfl)
  have hd : ¬ d = [] := fun hd0 => hsd (by rw [hd0]; rfl)
  have hex : (FuzzyMatcher.load_reference_data rows).exact_match (strip d) = none := by
    rw [FuzzyMatcher.exact_match, if_neg hsd, strip_idem]
    exact hx
  have hkwm : (FuzzyMatcher.load_reference_data rows).keyword_match (strip d)
      = some entry.2 := by
    rw [FuzzyMatcher.keyword_match, if_neg hsd]
    simp only [load_keywords, strip_idem]
    rw [hk]
    rfl
  simp only [FuzzyMatcher.get_best_match, if_neg hd]
  rw [hex]
  simp only [FuzzyMatcher.after_exact]
  rw [hkwm]
  simp [hent2]

/-- Witness for C3: "COSMETIC BAG" matches both the earlier "BAG" entry
and the later, more specific "COSMETIC BAG" entry; the first table entry
("BAG" → 42022900) wins over the more specific 42023210. -/
theorem c3_keyword_match_witness :
    (FuzzyMatcher.get_best_match scorer0 (FuzzyMatcher.load_reference_data [])
        (str "COSMETIC BAG")).hs_code = str "42022900" ∧
      (FuzzyMatcher.get_best_match scorer0 (FuzzyMatcher.load_reference_data [])
        (str "COSMETIC BAG")).method = str "keyword" ∧
      (FuzzyMatcher.get_best_match scorer0 (FuzzyMatcher.load_reference_data [])
        (str "COSMETIC BAG")).confidence = 90 :=
  c3_keyword_match [] scorer0 (str "COSMETIC BAG") (str "BAG", str "42022900")
    (by decide) (by decide)

/-! ## C4: fuzzy matching never returns below the threshold, monotone -/

theorem fb_fold_ge (scorer : Str → Str → ℚ) (d : Str) (t : ℚ) (l : List (Str × Str)) :
    ∀ st : ℚ × Option Str, (st.2.isSome = true → t ≤ st.1) →
      (l.foldl (fbStep scorer d t) st).2.isSome = true →
        t ≤ (l.foldl (fbStep scorer d t) st).1 := by
  induction l with
  | nil => intro st h; simpa using h
  | cons e rest ih =>
    intro st h
    simp only [List.foldl_cons]
    refine ih (fbStep scorer d t st e) ?_
    unfold fbStep
    by_cases hc : scorer d e.1 > st.1 ∧ scorer d e.1 ≥ t
    · rw [if_pos hc]
      intro _
      exact hc.2
    · rw [if_neg hc]
      exact h

theorem fb_fold_mono (scorer : Str → Str → ℚ) (d : Str) (t1 t2 : ℚ) (ht : t1 ≤ t2)
    (l : List (Str × Str)) :
    ∀ st1 st2 : ℚ × Option Str,
      st2.1 ≤ st1.1 → 0 ≤ st2.1 → (st1.2 = none → st1.1 = 0) →
      (st2.2.isSome = true → st1.2.isSome = true) →
      (l.foldl (fbStep scorer d t2) st2).1 ≤ (l.foldl (fbStep scorer d t1) st1).1 ∧
        0 ≤ (l.foldl (fbStep scorer d t2) st2).1 ∧
        ((l.foldl (fbStep scorer d t1) st1).2 = none →
          (l.foldl (fbStep scorer d t1) st1).1 = 0) ∧
        ((l.foldl (fbStep scorer d t2) st2).2.isSome = true →
          (l.foldl (fbStep scorer d t1) st1).2.isSome = true) := by
  induction l with
  | nil =>
    intro st1 st2 h1 h2 h3 h4
    exact ⟨h1, h2, h3, h4⟩
  | cons e rest ih =>
    intro st1 st2 h1 h2 h3 h4
    simp only [List.foldl_cons]
    refine ih (fbStep scorer d t1 st1 e) (fbStep scorer d t2 st2 e) ?_ ?_ ?_ ?_ <;>
      unfold fbStep <;>
      by_cases hc2 : scorer d e.1 > st2.1 ∧ scorer d e.1 ≥ t2 <;>
      by_cases hc1 : scorer d e.1 > st1.1 ∧ scorer d e.1 ≥ t1 <;>
      simp only [if_pos, if_neg, hc2, hc1, if_true, if_false]
    · exact le_refl _
    · push_neg at hc1
      exact le_of_not_lt (fun hlt => absurd (hc1 hlt) (not_lt.mpr (le_trans ht hc2.2)))
    · exact le_of_lt (lt_of_le_of_lt h1 hc1.1)
    · exact h1
    · exact le_of_lt (lt_of_le_of_lt h2 hc2.1)
    · exact le_of_lt (lt_of_le_of_lt h2 hc2.1)
    · exact h2
    · exact h2
    · intro habs; exact absurd habs (by simp)
    · intro habs
      exact h3 habs
    · intro habs; exact absurd habs (by simp)
    · exact h3
    · intro _; simp
    · intro _
      cases hs1 : st1.2 with
      | some v => simp
      | none =>
        exfalso
        have hz : st1.1 = 0 := h3 hs1
        push_neg at hc1
        have hslt : scorer d e.1 < t1 := hc1 (by
          rw [hz]
          exact lt_of_le_of_lt h2 hc2.1)
        exact absurd (le_trans ht hc2.2) (not_le.mpr hslt)
    · intro _; simp
    · exact h4

/-- C4: `FuzzyMatcher.fuzzy_match` (primary fuzzywuzzy path and difflib
fallback path alike, for every scorer) never returns a score below the
threshold, and a match accepted at a higher threshold is still accepted at
any lower threshold (on the primary path even with the identical result),
so raising the threshold cannot increase the accepted-match rate. -/
theorem c4_fuzzy_threshold :
    (∀ (scorer : Str → Str → ℚ) (m : FuzzyMatcher) (d : Str) (t : ℚ) (r : Str × ℚ),
        m.fuzzy_match scorer d t = some r → t ≤ r.2) ∧
      (∀ (scorer : Str → Str → ℚ) (m : FuzzyMatcher) (d : Str) (t1 t2 : ℚ) (r : Str × ℚ),
        t1 ≤ t2 → m.fuzzy_match scorer d t2 = some r → m.fuzzy_match scorer d t1 = some r) ∧
      (∀ (scorer : Str → Str → ℚ) (m : FuzzyMatcher) (d : Str) (t : ℚ) (r : Str × ℚ),
        m.fuzzy_match_fb scorer d t = some r → t ≤ r.2) ∧
      (∀ (scorer : Str → Str → ℚ) (m : FuzzyMatcher) (d : Str) (t1 t2 : ℚ) (r : Str × ℚ),
        t1 ≤ t2 → m.fuzzy_match_fb scorer d t2 = some r →
          (m.fuzzy_match_fb scorer d t1).isSome = true) := by
  refine ⟨?_, ?_, ?_, ?_⟩
  · intro scorer m d t r h
    unfold FuzzyMatcher.fuzzy_match at h
    by_cases hg : d = [] ∨ m.description_to_hs = []
    · rw [if_pos hg] at h; exact absurd h (by simp)
    · rw [if_neg hg] at h
      cases hext : extractOne scorer (upper (strip d)) (m.description_to_hs.map (·.1)) with
      | none => rw [hext] at h; exact absurd h (by simp)
      | some p =>
        obtain ⟨best, score⟩ := p
        rw [hext] at h
        have h2 : (if score ≥ t then
            some ((dget m.description_to_hs best).getD [], score) else none) = some r := h
        by_cases hs : score ≥ t
        · rw [if_pos hs] at h2
          rw [← Option.some.inj h2]
          exact hs
        · rw [if_neg hs] at h2
          exact absurd h2 (by simp)
  · intro scorer m d t1 t2 r ht h
    unfold FuzzyMatcher.fuzzy_match at h ⊢
    by_cases hg : d = [] ∨ m.description_to_hs = []
    · rw [if_pos hg] at h; exact absurd h (by simp)
    · rw [if_neg hg] at h
      rw [if_neg hg]
      cases hext : extractOne scorer (upper (strip d)) (m.description_to_hs.map (·.1)) with
      | none => rw [hext] at h; exact absurd h (by simp)
      | some p =>
        obtain ⟨best, score⟩ := p
        rw [hext] at h
        have h2 : (if score ≥ t2 then
            some ((dget m.description_to_hs best).getD [], score) else none) = some r := h
        show (if score ≥ t1 then
            some ((dget m.description_to_hs best).getD [], score) else none) = some r
        by_cases hs : score ≥ t2
        · rw [if_pos hs] at h2
          rw [if_pos (le_trans ht hs)]
          exact h2
        · rw [if_neg hs] at h2
          exact absurd h2 (by simp)
  · intro scorer m d t r h
    unfold FuzzyMatcher.fuzzy_match_fb at h
    by_cases hg : d = [] ∨ m.description_to_hs = []
    · rw [if_pos hg] at h; exact absurd h (by simp)
    · rw [if_neg hg] at h
      cases hfin : (m.description_to_hs.foldl (fbStep scorer (upper (strip d)) t)
          ((0 : ℚ), (none : Option Str))).2 with
      | none => rw [hfin] at h; exact absurd h (by simp)
      | some best =>
        rw [hfin] at h
        have hge := fb_fold_ge scorer (upper (strip d)) t m.description_to_hs
          ((0 : ℚ), (none : Option Str)) (by simp) (by rw [hfin]; rfl)
        have h2 : ((dget m.description_to_hs best).getD [],
            (m.description_to_hs.foldl (fbStep scorer (upper (strip d)) t)
              ((0 : ℚ), (none : Option Str))).1) = r := Option.some.inj h
        rw [← h2]
        exact hge
  · intro scorer m d t1 t2 r ht h
    unfold FuzzyMatcher.fuzzy_match_fb at h ⊢
    by_cases hg : d = [] ∨ m.description_to_hs = []
    · rw [if_pos hg] at h; exact absurd h (by simp)
    · rw [if_neg hg] at h
      rw [if_neg hg]
      have hmono := fb_fold_mono scorer (upper (strip d)) t1 t2 ht m.description_to_hs
        ((0 : ℚ), (none : Option Str)) ((0 : ℚ), (none : Option Str))
        (le_refl _) (le_refl _) (fun _ => rfl) (fun hx => hx)
      cases hfin2 : (m.description_to_hs.foldl (fbStep scorer (upper (strip d)) t2)
          ((0 : ℚ), (none : Option Str))).2 with
      | none => rw [hfin2] at h; exact absurd h (by simp)
      | some best =>
        have hs1 : (m.description_to_hs.foldl (fbStep scorer (upper (strip d)) t1)
            ((0 : ℚ), (none : Option Str))).2.isSome = true := by
          refine hmono.2.2.2 ?_
          rw [hfin2]
          rfl
        cases hfin1 : (m.description_to_hs.foldl (fbStep scorer (upper (strip d)) t1)
            ((0 : ℚ), (none : Option Str))).2 with
        | none => rw [hfin1] at hs1; simp at hs1
        | some best1 => simp

/-- Witness for C4 at a concrete scorer, matcher, description and the
thresholds 80 and 50. -/
theorem c4_fuzzy_threshold_witness :
    ((80 : ℚ) ≤ (str "650400", (90 : ℚ)).2) ∧
      (FuzzyMatcher.load_reference_data c2rows).fuzzy_match scorer90 (str "HAT") 50
        = some (str "650400", 90) ∧
      ((50 : ℚ) ≤ (str "650400", (90 : ℚ)).2) ∧
      ((FuzzyMatcher.load_reference_data c2rows).fuzzy_match_fb scorer90 (str "HAT") 50).isSome
        = true :=
  ⟨c4_fuzzy_threshold.1 scorer90 (FuzzyMatcher.load_reference_data c2rows) (str "HAT") 80
      (str "650400", 90) (by decide),
    c4_fuzzy_threshold.2.1 scorer90 (FuzzyMatcher.load_reference_data c2rows) (str "HAT") 50 80
      (str "650400", 90) (by norm_num) (by decide),
    c4_fuzzy_threshold.2.2.1 scorer90 (FuzzyMatcher.load_reference_data c2rows) (str "HAT") 50
      (str "650400", 90) (by decide),
    c4_fuzzy_threshold.2.2.2 scorer90 (FuzzyMatcher.load_reference_data c2rows) (str "HAT") 50 80
      (str "650400", 90) (by norm_num) (by decide)⟩

/-! ## C5: weight-estimation dispatch order -/

/-- Counterexample to C5 as stated: the code `"9999"` matches no entry of
the static prefix table (neither by its 4- nor by its 2-character prefix),
and the description `"HAT"` carries keyword weights `{0.2, 0.15}`, yet
`estimate_weights` returns the static default `{0.3, 0.25}`: when a code
is given, the description is never consulted. -/
theorem c5_counterexample :
    prefixScan WeightEstimator.static.default_weights (str "9999") = none ∧
      prefixScan WeightEstimator.static.default_weights (str "99") = none ∧
      dget WeightEstimator.static.keyword_weights (str "HAT") = some ⟨1/5, 3/20⟩ ∧
      WeightEstimator.static.estimate_weights (str "9999") (str "HAT") 1 = ⟨3/10, 1/4⟩ ∧
      (⟨3/10, 1/4⟩ : Weights) ≠ ⟨1/5, 3/20⟩ := by
  refine ⟨by decide, by decide, rfl, ?_, ?_⟩
  · have h1 : WeightEstimator.static.estimate_weights (str "9999") (str "HAT") 1
        = ⟨WeightEstimator.staticDefault.gross * 1, WeightEstimator.staticDefault.net * 1⟩ := rfl
    rw [h1]
    simp [WeightEstimator.staticDefault]
  · simp only [ne_eq, Weights.mk.injEq, not_and]
    intro habs
    norm_num at habs

/-- C5 (amended): `estimate_weights` consults the HS-code prefix table
(4-character, then 2-character prefix, then the static default) whenever a
code is given — the description is then irrelevant — and scans the
description keyword table (first table entry whose keyword occurs wins)
only when the code is absent; with neither, the static default; the result
is always the chosen per-unit pair scaled by the quantity. -/
theorem c5_weight_dispatch :
    (∀ (hs d d' : Str) (q : ℚ), hs ≠ [] →
        WeightEstimator.static.estimate_weights hs d q
          = WeightEstimator.static.estimate_weights hs d' q) ∧
      (∀ (hs d : Str) (q : ℚ), hs ≠ [] →
        WeightEstimator.static.estimate_weights hs d q
          = ⟨(WeightEstimator.static.estimate_by_hs_code hs).gross * q,
              (WeightEstimator.static.estimate_by_hs_code hs).net * q⟩) ∧
      (∀ (d : Str) (q : ℚ), d ≠ [] →
        WeightEstimator.static.estimate_weights [] d q
          = ⟨(WeightEstimator.static.estimate_by_description d).gross * q,
              (WeightEstimator.static.estimate_by_description d).net * q⟩) ∧
      (∀ q : ℚ, WeightEstimator.static.estimate_weights [] [] q
          = ⟨WeightEstimator.staticDefault.gross * q, WeightEstimator.staticDefault.net * q⟩) ∧
      (∀ (d : Str) (e : Str × Weights), d ≠ [] →
        WeightEstimator.static.keyword_weights.find? (fun e => isSubstrB e.1 (upper d))
            = some e →
        WeightEstimator.static.estimate_by_description d = e.2) := by
  refine ⟨?_, ?_, ?_, ?_, ?_⟩
  · intro hs d d' q hhs
    unfold WeightEstimator.estimate_weights
    rw [if_pos hhs, if_pos hhs]
  · intro hs d q hhs
    unfold WeightEstimator.estimate_weights
    rw [if_pos hhs]
  · intro d q hd
    unfold WeightEstimator.estimate_weights
    rw [if_neg (by simp), if_pos hd]
  · intro q
    unfold WeightEstimator.estimate_weights
    rw [if_neg (by simp), if_neg (by simp)]
    rfl
  · intro d e hd hf
    unfold WeightEstimator.estimate_by_description
    rw [if_neg hd, hf]
    rfl

/-- Witness for C5 (amended) at concrete codes, descriptions and
quantities. -/
theorem c5_weight_dispatch_witness :
    (WeightEstimator.static.estimate_weights (str "9999") (str "HAT") 1
        = WeightEstimator.static.estimate_weights (str "9999") (str "RING") 1) ∧
      (WeightEstimator.static.estimate_weights (str "6504") (str "RING") 3
        = ⟨(WeightEstimator.static.estimate_by_hs_code (str "6504")).gross * 3,
            (WeightEstimator.static.estimate_by_hs_code (str "6504")).net * 3⟩) ∧
      (WeightEstimator.static.estimate_weights [] (str "STRAW HAT") 2
        = ⟨(WeightEstimator.static.estimate_by_description (str "STRAW HAT")).gross * 2,
            (WeightEstimator.static.estimate_by_description (str "STRAW HAT")).net * 2⟩) ∧
      (WeightEstimator.static.estimate_weights [] [] 5
        = ⟨WeightEstimator.staticDefault.gross * 5, WeightEstimator.staticDefault.net * 5⟩) ∧
      WeightEstimator.static.estimate_by_description (str "STRAW HAT")
        = (str "HAT", (⟨1/5, 3/20⟩ : Weights)).2 :=
  ⟨c5_weight_dispatch.1 (str "9999") (str "HAT") (str "RING") 1 (by decide),
    c5_weight_dispatch.2.1 (str "6504") (str "RING") 3 (by decide),
    c5_weight_dispatch.2.2.1 (str "STRAW HAT") 2 (by decide),
    c5_weight_dispatch.2.2.2.1 5,
    c5_weight_dispatch.2.2.2.2 (str "STRAW HAT") (str "HAT", ⟨1/5, 3/20⟩)
      (by decide) rfl⟩

/-! ## C6: synthesized prior-document reference -/

/-- C6: when the product-code and description lookups both fail,
`get_document_reference` with a classification code synthesizes
`"<office> <year> C <serial> art. <article>"` — office from the 2-character
prefix table (default `LCCAP`), serial the code's last four characters when
it has at least six (else `10000`), article its last two characters when it
has at least four (else `1`) — and with no code at all it returns the fixed
literal default. -/
theorem c6_document_reference (m : DocumentReferenceMapper) (year : Nat)
    (product_code description hs_code : Str)
    (hoff : m.hs_to_office = hsOfficeTable)
    (hpc : product_code = [] ∨ dget m.product_to_document (upper product_code) = none)
    (hdesc : description = [] ∨
      (dget m.description_to_document (upper description) = none ∧
        m.description_to_document.find?
          (fun e => isSubstrB e.1 (upper description) || isSubstrB (upper description) e.1)
          = none)) :
    (hs_code ≠ [] →
      m.get_document_reference year product_code description hs_code
        = (if 2 ≤ hs_code.length then
              (dget hsOfficeTable (hs_code.take 2)).getD (str "LCCAP") else str "LCCAP")
            ++ str " " ++ natStr year ++ str " C "
            ++ (if 6 ≤ hs_code.length then hs_code.drop (hs_code.length - 4) else str "10000")
            ++ str " art. "
            ++ (if 4 ≤ hs_code.length then hs_code.drop (hs_code.length - 2) else str "1")) ∧
      (hs_code = [] →
        m.get_document_reference year product_code description hs_code
          = str "LCCAP 2025 C 10000 art. 1") := by
  have hcore : m.get_document_reference year product_code description hs_code
      = if hs_code ≠ [] then m.generate_default_reference year hs_code
        else str "LCCAP 2025 C 10000 art. 1" := by
    unfold DocumentReferenceMapper.get_document_reference
    rcases hpc with hpc | hpc
    · rw [if_neg (fun hne => hne hpc)]
      rcases hdesc with hdesc | ⟨hd1, hd2⟩
      · rw [if_neg (fun hne => hne hdesc)]
      · by_cases hdne : description = []
        · rw [if_neg (fun hne => hne hdne)]
        · rw [if_pos hdne, hd1, hd2]
    · by_cases hpcne : product_code = []
      · rw [if_neg (fun hne => hne hpcne)]
        rcases hdesc with hdesc | ⟨hd1, hd2⟩
        · rw [if_neg (fun hne => hne hdesc)]
        · by_cases hdne : description = []
          · rw [if_neg (fun hne => hne hdne)]
          · rw [if_pos hdne, hd1, hd2]
      · rw [if_pos hpcne, hpc]
        rcases hdesc with hdesc | ⟨hd1, hd2⟩
        · rw [if_neg (fun hne => hne hdesc)]
        · by_cases hdne : description = []
          · rw [if_neg (fun hne => hne hdne)]
          · rw [if_pos hdne, hd1, hd2]
  constructor
  · intro hhs
    rw [hcore, if_pos hhs]
    unfold DocumentReferenceMapper.generate_default_reference
    rw [hoff]
  · intro hhs
    rw [hcore, if_neg (fun hne => hne hhs)]

/-- Witness for C6 at the freshly constructed mapper, the year 2025, and
the codes `"65040000"` and the empty code. -/
theorem c6_document_reference_witness :
    (DocumentReferenceMapper.empty.get_document_reference 2025 [] [] (str "65040000")
        = (if 2 ≤ (str "65040000").length then
              (dget hsOfficeTable ((str "65040000").take 2)).getD (str "LCCAP")
            else str "LCCAP")
            ++ str " " ++ natStr 2025 ++ str " C "
            ++ (if 6 ≤ (str "65040000").length then
                  (str "65040000").drop ((str "65040000").length - 4) else str "10000")
            ++ str " art. "
            ++ (if 4 ≤ (str "65040000").length then
                  (str "65040000").drop ((str "65040000").length - 2) else str "1")) ∧
      DocumentReferenceMapper.empty.get_document_reference 2025 [] [] []
        = str "LCCAP 2025 C 10000 art. 1" :=
  ⟨(c6_document_reference DocumentReferenceMapper.empty 2025 [] [] (str "65040000")
      rfl (Or.inl rfl) (Or.inl rfl)).1 (by decide),
    (c6_document_reference DocumentReferenceMapper.empty 2025 [] [] []
      rfl (Or.inl rfl) (Or.inl rfl)).2 rfl⟩

/-! ## C7: net weight exceeding gross weight -/

/-- Counterexample to C7 as stated: an item whose net weight exceeds its
gross weight but whose HS code is also malformed fails `Item.validate`
with the HS-code message, not with the net-weight message — the
construction-time check raises only the first failing check's error. -/
theorem c7_counterexample :
    itemBadNG.gross_weight < itemBadNG.net_weight ∧
      Item.validate itemBadNG = Except.error (str "Invalid HS Code format: X") ∧
      Item.validate itemBadNG ≠ Except.error (str "Net weight cannot exceed gross weight") := by
  refine ⟨?_, rfl, ?_⟩
  · show (1 : ℚ) < 2
    norm_num
  · have heq : Item.validate itemBadNG = Except.error (str "Invalid HS Code format: X") := rfl
    rw [heq]
    intro habs
    have := Except.error.inj habs
    exact absurd this (by decide)

/-- C7 (amended): for every item with net weight above gross weight the
engine's `_validate_item` unconditionally records the (spec-modelled)
cross-field error and invalidates the result, and `Item.validate` always
raises — with exactly the "Net weight cannot exceed gross weight" message
whenever the checks preceding it (HS-code format, country code, positive
gross weight) pass. -/
theorem c7_net_exceeds_gross (it : Item) (n : ℕ)
    (h : it.gross_weight < it.net_weight) :
    (netExceedsGrossMsg n ∈ (validate_item it n).errors ∧
        (validate_item it n).is_valid = false) ∧
      it.validate ≠ Except.ok () ∧
      (hsCodePat it.hs_code = true → countryPat it.country_of_origin = true →
        0 < it.gross_weight →
        it.validate = Except.error (str "Net weight cannot exceed gross weight")) := by
  refine ⟨?_, ?_, ?_⟩
  · unfold validate_item
    rw [if_pos h]
    unfold ValidationResult.add_error
    constructor
    · exact List.mem_append_right _ (List.mem_singleton.mpr rfl)
    · rfl
  · unfold Item.validate
    split_ifs <;> simp_all
  · intro hhs hcc hg
    unfold Item.validate
    rw [if_neg (by simp [hhs]), if_neg (by simp [hcc]), if_neg (not_le.mpr hg),
      if_neg (not_le.mpr (lt_trans hg h)), if_pos h]

/-- Witness for C7 (amended) at a concrete otherwise-well-formed item. -/
theorem c7_net_exceeds_gross_witness :
    (netExceedsGrossMsg 1 ∈ (validate_item itemNG 1).errors ∧
        (validate_item itemNG 1).is_valid = false) ∧
      itemNG.validate ≠ Except.ok () ∧
      (hsCodePat itemNG.hs_code = true → countryPat itemNG.country_of_origin = true →
        0 < itemNG.gross_weight →
        itemNG.validate = Except.error (str "Net weight cannot exceed gross weight")) :=
  c7_net_exceeds_gross itemNG 1 (by norm_num [itemNG, itemOK])

/-! ## C8: declarations without items -/

/-- Counterexample to C8 as stated: with an empty registration number and
no items, `Declaration.validate` raises the registration-number error, not
the "must have at least one item" error — the aggregate check raises only
the first failing check's error. -/
theorem c8_counterexample :
    declBad.items = [] ∧
      Declaration.validate declBad = Except.error (str "Registration number is required") ∧
      Declaration.validate declBad
        ≠ Except.error (str "Declaration must have at least one item") := by
  refine ⟨rfl, rfl, ?_⟩
  have heq : Declaration.validate declBad
      = Except.error (str "Registration number is required") := rfl
  rw [heq]
  intro habs
  exact absurd (Except.error.inj habs) (by decide)

/-- C8 (amended): for every declaration with no items the engine's
`validate_declaration` — whatever the truncated `_validate_consistency`
contributes — records "Declaration must have at least one item" and is
invalid, and `Declaration.validate` always raises; it raises exactly that
message when the header, entity and procedure checks preceding the item
check all pass. -/
theorem c8_empty_items (consistency : Declaration → ValidationResult) (d : Declaration)
    (hitems : d.items = []) :
    (str "Declaration must have at least one item"
        ∈ (validate_declaration consistency d).errors ∧
      (validate_declaration consistency d).is_valid = false) ∧
      d.validate ≠ Except.ok () ∧
      (d.registration_number ≠ [] →
        d.declaration_type ∈ [str "EX1", str "EX2", str "EX3"] →
        d.customs_office ∈ [str "LCVFP", str "LCHB", str "LCCAP", str "LCVGC"] →
        d.exporter.validate = Except.ok () →
        d.declarant.validate = Except.ok () →
        fourDigitPat d.general_procedure_code = true →
        threeDigitPat d.extended_procedure_code = true →
        d.country_of_destination ∈ [str "US", str "ES", str "GB", str "CA", str "LC", str "VC"] →
        d.mode_of_transport ∈ [str "VC", str "AA", str "DL", str "BA", str "VS", str "BW"] →
        d.validate = Except.error (str "Declaration must have at least one item")) := by
  have hhdr : str "Declaration must have at least one item" ∈ (validate_header d).errors ∧
      (validate_header d).is_valid = false := by
    unfold validate_header
    rw [if_pos hitems]
    unfold ValidationResult.add_error
    exact ⟨List.mem_append_right _ (List.mem_singleton.mpr rfl), rfl⟩
  refine ⟨?_, ?_, ?_⟩
  · unfold validate_declaration
    rw [hitems]
    simp only [List.enumFrom, List.foldl_nil, ValidationResult.merge]
    constructor
    · exact List.mem_append_left _ (List.mem_append_left _
        (List.mem_append_left _ hhdr.1))
    · rw [hhdr.2]
      rfl
  · unfold Declaration.validate
    split_ifs <;> try simp
    all_goals
      cases hexp : d.exporter.validate with
      | error e => simp
      | ok u =>
        cases hdecl : d.declarant.validate with
        | error e2 => simp
        | ok u2 => simp_all
  · intro hreg htyp hoffc hexp hdecl hgpc hepc hdest htrans
    unfold Declaration.validate
    rw [if_neg hreg, if_neg (not_not_intro htyp), if_neg (not_not_intro hoffc), hexp, hdecl]
    simp [hgpc, hepc, hdest, htrans, hitems]

/-- Witness for C8 (amended) at a declaration with a fully valid header
and no items, merged with an empty consistency result. -/
theorem c8_empty_items_witness :
    (str "Declaration must have at least one item"
        ∈ (validate_declaration (fun _ => ValidationResult.empty) declNoItems).errors ∧
      (validate_declaration (fun _ => ValidationResult.empty) declNoItems).is_valid = false) ∧
      declNoItems.validate ≠ Except.ok () ∧
      (declNoItems.registration_number ≠ [] →
        declNoItems.declaration_type ∈ [str "EX1", str "EX2", str "EX3"] →
        declNoItems.customs_office ∈ [str "LCVFP", str "LCHB", str "LCCAP", str "LCVGC"] →
        declNoItems.exporter.validate = Except.ok () →
        declNoItems.declarant.validate = Except.ok () →
        fourDigitPat declNoItems.general_procedure_code = true →
        threeDigitPat declNoItems.extended_procedure_code = true →
        declNoItems.country_of_destination
          ∈ [str "US", str "ES", str "GB", str "CA", str "LC", str "VC"] →
        declNoItems.mode_of_transport
          ∈ [str "VC", str "AA", str "DL", str "BA", str "VS", str "BW"] →
        declNoItems.validate = Except.error (str "Declaration must have at least one item")) :=
  c8_empty_items (fun _ => ValidationResult.empty) declNoItems rfl

/-! ## C10: the ValidationResult mutation discipline -/

/-- C10: under the no-argument-constructor / `add_error` / `add_warning` /
`merge` discipline, `is_valid` is true exactly when the error list is
empty; `add_warning` never changes `is_valid`; and `merge` concatenates
both operand's error and warning lists in order, `self`'s first. -/
theorem c10_validation_result :
    (∀ r : ValidationResult, BuiltVR r → (r.is_valid = true ↔ r.errors = [])) ∧
      (∀ (r : ValidationResult) (w : Str), (r.add_warning w).is_valid = r.is_valid) ∧
      (∀ r o : ValidationResult,
        (r.merge o).errors = r.errors ++ o.errors ∧
          (r.merge o).warnings = r.warnings ++ o.warnings) := by
  refine ⟨?_, ?_, ?_⟩
  · intro r hr
    induction hr with
    | empty => simp [ValidationResult.empty]
    | add_error r e _ _ => simp [ValidationResult.add_error]
    | add_warning r w _ ih => simpa [ValidationResult.add_warning] using ih
    | merge r o _ _ ih1 ih2 =>
      simp [ValidationResult.merge, Bool.and_eq_true, ih1, ih2, List.append_eq_nil]
  · intro r w
    rfl
  · intro r o
    exact ⟨rfl, rfl⟩

/-- Witness for C10 at a concretely built result. -/
theorem c10_validation_result_witness :
    ((ValidationResult.empty.add_error (str "E")).is_valid = true ↔
      (ValidationResult.empty.add_error (str "E")).errors = []) :=
  c10_validation_result.1 _ (BuiltVR.add_error _ _ BuiltVR.empty)

/-! ## C1: item numbering in the field-resolution row loop -/

/-- Counterexample to C1 as stated: with the first input row skipped
(missing description and value) and the second retained, the single
resulting item carries `item_number` 2 — the original row index plus one —
not the 1-based position 1 among retained rows. -/
theorem c1_counterexample :
    (map_sales_to_declaration lookup0 estimate0 docref0 salesRows0 entOK entOK
        (str "A1") none (str "01/01/2025")).items.map (·.item_number) = [2] ∧
      ([2] : List ℤ) ≠ [1] := by
  exact ⟨rfl, by decide⟩

theorem mapSalesAux_items (lookup : Str → LookupResult)
    (estimate : Str → Str → ℚ → Weights) (docref : Str → Str → Str → Str) :
    ∀ (l : List (ℕ × SalesRow)) (d : Declaration),
      (mapSalesAux lookup estimate docref l d).items
        = d.items ++ (l.filter (fun p => keepRow p.2)).map
            (fun p => mkSalesItem lookup estimate docref p.1 p.2) := by
  intro l
  induction l with
  | nil => intro d; simp [mapSalesAux]
  | cons p rest ih =>
    intro d
    obtain ⟨idx, r⟩ := p
    unfold mapSalesAux
    by_cases hk : keepRow r
    · rw [if_pos hk, ih]
      have hnum : ¬ (mkSalesItem lookup estimate docref idx r).item_number ≤ 0 := by
        show ¬ ((idx : ℤ) + 1 ≤ 0)
        omega
      simp [Declaration.add_item, hnum, List.filter_cons, hk]
    · rw [if_neg hk, ih]
      simp [List.filter_cons, hk]

/-- C1 (amended): the items produced by `map_sales_to_declaration` are the
retained rows in order, each numbered with its original 0-based row index
plus one — so when earlier rows are skipped the numbering starts above 1
and is not the 1-based position among retained rows. -/
theorem c1_item_numbers (lookup : Str → LookupResult)
    (estimate : Str → Str → ℚ → Weights) (docref : Str → Str → Str → Str)
    (rows : List SalesRow) (exporter declarant : Entity)
    (registration_number : Str) (commercial_reference : Option Str) (dateStr : Str) :
    (map_sales_to_declaration lookup estimate docref rows exporter declarant
        registration_number commercial_reference dateStr).items.map (·.item_number)
      = (rows.enum.filter (fun p => keepRow p.2)).map (fun p => (p.1 : ℤ) + 1) := by
  unfold map_sales_to_declaration
  rw [mapSalesAux_items]
  simp only [List.nil_append, List.map_map]
  rfl

/-! ## C9: pipe-delimited encode / re-parse round-trip -/

theorem scan_nil_fs (fa : Str) (ra : List Str) :
    scan [] .fs fa ra = if ra = [] then [] else [ra ++ [[]]] := by
  conv_lhs => unfold scan
  all_goals first
  | rfl
  | simp

theorem scan_fs_quote (rest fa : Str) (ra : List Str) :
    scan ('"' :: rest) .fs fa ra = scan rest .inQ [] ra := by
  conv_lhs => unfold scan
  all_goals first
  | rfl
  | simp

theorem scan_fs_pipe (rest fa : Str) (ra : List Str) :
    scan ('|' :: rest) .fs fa ra = scan rest .fs [] (ra ++ [[]]) := by
  conv_lhs => unfold scan
  all_goals first
  | rfl
  | simp

theorem scan_fs_nl (rest fa : Str) (ra : List Str) (hra : ¬ ra = []) :
    scan ('\r' :: '\n' :: rest) .fs fa ra = (ra ++ [[]]) :: scan rest .fs [] [] := by
  conv_lhs => unfold scan
  simp [hra]

theorem scan_fs_other (c : Char) (rest fa : Str) (ra : List Str)
    (hq : ¬ c = '"') (hp : ¬ c = '|') (hr : ¬ c = '\r') :
    scan (c :: rest) .fs fa ra = scan rest .unq [c] ra := by
  conv_lhs => unfold scan
  dsimp only
  rw [if_neg hq, if_neg hp, if_neg hr]

theorem scan_unq_pipe (rest fa : Str) (ra : List Str) :
    scan ('|' :: rest) .unq fa ra = scan rest .fs [] (ra ++ [fa]) := by
  conv_lhs => unfold scan
  all_goals first
  | rfl
  | simp

theorem scan_unq_nl (rest fa : Str) (ra : List Str) :
    scan ('\r' :: '\n' :: rest) .unq fa ra = (ra ++ [fa]) :: scan rest .fs [] [] := by
  conv_lhs => unfold scan
  all_goals first
  | rfl
  | simp

theorem scan_unq_other (c : Char) (rest fa : Str) (ra : List Str)
    (hp : ¬ c = '|') (hr : ¬ c = '\r') :
    scan (c :: rest) .unq fa ra = scan rest .unq (fa ++ [c]) ra := by
  conv_lhs => unfold scan
  dsimp only
  rw [if_neg hp, if_neg hr]

theorem scan_inQ_esc (rest fa : Str) (ra : List Str) :
    scan ('"' :: '"' :: rest) .inQ fa ra = scan rest .inQ (fa ++ ['"']) ra := by
  conv_lhs => unfold scan
  all_goals first
  | rfl
  | simp

theorem scan_inQ_eof (fa : Str) (ra : List Str) :
    scan ['"'] .inQ fa ra = [ra ++ [fa]] := by
  conv_lhs => unfold scan
  all_goals first
  | rfl
  | simp

theorem scan_inQ_close (c2 : Char) (rest2 fa : Str) (ra : List Str) (hc2 : ¬ c2 = '"') :
    scan ('"' :: c2 :: rest2) .inQ fa ra = scan (c2 :: rest2) .afterQ fa ra := by
  conv_lhs => unfold scan
  dsimp only
  rw [if_neg hc2]
  simp

theorem scan_inQ_other (c : Char) (rest fa : Str) (ra : List Str) (hq : ¬ c = '"') :
    scan (c :: rest) .inQ fa ra = scan rest .inQ (fa ++ [c]) ra := by
  conv_lhs => unfold scan
  dsimp only
  rw [if_neg hq]

theorem scan_afterQ_pipe (rest fa : Str) (ra : List Str) :
    scan ('|' :: rest) .afterQ fa ra = scan rest .fs [] (ra ++ [fa]) := by
  conv_lhs => unfold scan
  all_goals first
  | rfl
  | simp

theorem scan_afterQ_nl (rest fa : Str) (ra : List Str) :
    scan ('\r' :: '\n' :: rest) .afterQ fa ra = (ra ++ [fa]) :: scan rest .fs [] [] := by
  conv_lhs => unfold scan
  all_goals first
  | rfl
  | simp

theorem scan_afterQ_eof (fa : Str) (ra : List Str) :
    scan [] .afterQ fa ra = [ra ++ [fa]] := by
  conv_lhs => unfold scan
  all_goals first
  | rfl
  | simp

theorem scan_unq_run (f : Str) (hf : ∀ c ∈ f, isSpecialChar c = false) :
    ∀ (rest fa : Str) (ra : List Str),
      scan (f ++ rest) .unq fa ra = scan rest .unq (fa ++ f) ra := by
  induction f with
  | nil => intro rest fa ra; simp
  | cons c f' ih =>
    intro rest fa ra
    have hc := hf c (List.mem_cons_self _ _)
    simp only [isSpecialChar, Bool.or_eq_false_iff, decide_eq_false_iff_not] at hc
    obtain ⟨⟨⟨hp, hq⟩, hr⟩, hn⟩ := hc
    rw [List.cons_append, scan_unq_other c _ _ _ hp hr,
      ih (fun c2 hc2 => hf c2 (List.mem_cons_of_mem _ hc2)), List.append_assoc,
      List.singleton_append]

theorem scan_q_run (f : Str) :
    ∀ (rest fa : Str) (ra : List Str), rest.head? ≠ some '"' →
      scan (escQ f ++ '"' :: rest) .inQ fa ra = scan rest .afterQ (fa ++ f) ra := by
  induction f with
  | nil =>
    intro rest fa ra hrest
    cases rest with
    | nil =>
      show scan ['"'] .inQ fa ra = _
      rw [scan_inQ_eof, scan_afterQ_eof]
      simp
    | cons c2 rest2 =>
      have hc2 : ¬ c2 = '"' := fun habs => hrest (by rw [habs]; rfl)
      show scan ('"' :: c2 :: rest2) .inQ fa ra = _
      rw [scan_inQ_close c2 rest2 fa ra hc2]
      simp
  | cons c f' ih =>
    intro rest fa ra hrest
    by_cases hc : c = '"'
    · subst hc
      have hesc : escQ ('"' :: f') = '"' :: '"' :: escQ f' := by
        simp [escQ]
      rw [hesc, List.cons_append, List.cons_append, scan_inQ_esc,
        ih rest (fa ++ ['"']) ra hrest, List.append_assoc, List.singleton_append]
    · have hesc : escQ (c :: f') = c :: escQ f' := by
        simp [escQ, hc]
      rw [hesc, List.cons_append, scan_inQ_other c _ _ _ hc,
        ih rest (fa ++ [c]) ra hrest, List.append_assoc, List.singleton_append]

theorem scan_field_pipe (f rest fa : Str) (ra : List Str) :
    scan (writeField f ++ '|' :: rest) .fs fa ra = scan rest .fs [] (ra ++ [f]) := by
  by_cases hq : f.any isSpecialChar = true
  · have hw : writeField f = '"' :: (escQ f ++ ['"']) := by simp [writeField, hq]
    rw [hw]
    simp only [List.cons_append, List.append_assoc, List.singleton_append, List.nil_append]
    rw [scan_fs_quote, scan_q_run f ('|' :: rest) [] ra (by simp), scan_afterQ_pipe]
    simp
  · have hw : writeField f = f := by simp [writeField, hq]
    rw [hw]
    cases hfc : f with
    | nil => simp only [List.nil_append]; rw [scan_fs_pipe]
    | cons c f' =>
      rw [hfc] at hq
      simp only [List.any_cons, Bool.or_eq_true, not_or] at hq
      have hc : isSpecialChar c = false := by
        cases hb : isSpecialChar c with
        | false => rfl
        | true => exact absurd hb hq.1
      have hf' : ∀ c2 ∈ f', isSpecialChar c2 = false := by
        intro c2 hc2
        cases hb : isSpecialChar c2 with
        | false => rfl
        | true =>
          exfalso
          exact hq.2 (List.any_eq_true.mpr ⟨c2, hc2, hb⟩)
      simp only [isSpecialChar, Bool.or_eq_false_iff, decide_eq_false_iff_not] at hc
      obtain ⟨⟨⟨hp, hqc⟩, hr⟩, hn⟩ := hc
      rw [List.cons_append, scan_fs_other c _ _ _ hqc hp hr, scan_unq_run f' hf',
        scan_unq_pipe]
      simp

theorem scan_field_nl (f rest fa : Str) (ra : List Str) (hra : ¬ ra = []) :
    scan (writeField f ++ '\r' :: '\n' :: rest) .fs fa ra
      = (ra ++ [f]) :: scan rest .fs [] [] := by
  by_cases hq : f.any isSpecialChar = true
  · have hw : writeField f = '"' :: (escQ f ++ ['"']) := by simp [writeField, hq]
    rw [hw]
    simp only [List.cons_append, List.append_assoc, List.singleton_append, List.nil_append]
    rw [scan_fs_quote, scan_q_run f ('\r' :: '\n' :: rest) [] ra (by simp), scan_afterQ_nl]
    simp
  · have hw : writeField f = f := by simp [writeField, hq]
    rw [hw]
    cases hfc : f with
    | nil => simp only [List.nil_append]; rw [scan_fs_nl _ _ _ hra]
    | cons c f' =>
      rw [hfc] at hq
      simp only [List.any_cons, Bool.or_eq_true, not_or] at hq
      have hc : isSpecialChar c = false := by
        cases hb : isSpecialChar c with
        | false => rfl
        | true => exact absurd hb hq.1
      have hf' : ∀ c2 ∈ f', isSpecialChar c2 = false := by
        intro c2 hc2
        cases hb : isSpecialChar c2 with
        | false => rfl
        | true =>
          exfalso
          exact hq.2 (List.any_eq_true.mpr ⟨c2, hc2, hb⟩)
      simp only [isSpecialChar, Bool.or_eq_false_iff, decide_eq_false_iff_not] at hc
      obtain ⟨⟨⟨hp, hqc⟩, hr⟩, hn⟩ := hc
      rw [List.cons_append, scan_fs_other c _ _ _ hqc hp hr, scan_unq_run f' hf',
        scan_unq_nl]
      simp

theorem scan_row_run (fs : List Str) :
    ∀ (f rest fa : Str) (ra : List Str), (¬ ra = [] ∨ fs ≠ []) →
      scan (writeRowBody (f :: fs) ++ '\r' :: '\n' :: rest) .fs fa ra
        = (ra ++ f :: fs) :: scan rest .fs [] [] := by
  induction fs with
  | nil =>
    intro f rest fa ra hra
    have hra' : ¬ ra = [] := by
      rcases hra with h | h
      · exact h
      · exact absurd rfl h
    show scan (writeField f ++ '\r' :: '\n' :: rest) .fs fa ra = _
    rw [scan_field_nl f rest fa ra hra']
  | cons g fs' ih =>
    intro f rest fa ra _
    show scan ((writeField f ++ '|' :: writeRowBody (g :: fs')) ++ '\r' :: '\n' :: rest)
        .fs fa ra = _
    rw [List.append_assoc, List.cons_append, scan_field_pipe,
      ih g rest [] (ra ++ [f]) (Or.inl (by simp)), List.append_assoc, List.cons_append,
      List.nil_append]

theorem scan_rows (rowsL : List (List Str)) (h2 : ∀ r ∈ rowsL, 2 ≤ r.length) :
    parseCsv (genRows rowsL) = rowsL := by
  unfold parseCsv
  induction rowsL with
  | nil => rw [show genRows [] = [] from rfl, scan_nil_fs, if_pos rfl]
  | cons r rest ih =>
    have hlen := h2 r (List.mem_cons_self _ _)
    cases hr : r with
    | nil => rw [hr] at hlen; simp at hlen
    | cons f fs =>
      have hfs : fs ≠ [] := by
        intro habs
        rw [hr, habs] at hlen
        simp at hlen
      have hgen : genRows ((f :: fs) :: rest)
          = writeRowBody (f :: fs) ++ '\r' :: '\n' :: genRows rest := by
        show (writeRow (f :: fs) ++ genRows rest : Str) = _
        unfold writeRow
        simp [List.append_assoc]
      rw [hgen, scan_row_run fs f (genRows rest) [] [] (Or.inr hfs), List.nil_append,
        ih (fun r2 hr2 => h2 r2 (List.mem_cons_of_mem _ hr2))]

/-- C9: parsing the pipe-delimited output of a declaration yields exactly
the header row followed by one row per item in original order, so the
rows prefixed "I" reproduce every item's code, description and (via the
injective numeric rendering) numeric fields; quoting makes this hold for
arbitrary field contents. -/
theorem c9_pipe_roundtrip (d : Declaration) :
    parseCsv (PipeDelimitedGenerator.generate d)
        = headerFields d :: d.items.map itemFields ∧
      (parseCsv (PipeDelimitedGenerator.generate d)).filter
          (fun r => decide (r.head? = some (str "I")))
        = d.items.map itemFields := by
  have h1 : parseCsv (PipeDelimitedGenerator.generate d)
      = headerFields d :: d.items.map itemFields := by
    unfold PipeDelimitedGenerator.generate
    refine scan_rows _ ?_
    intro r hr
    rcases List.mem_cons.mp hr with h | h
    · subst h
      simp [headerFields]
    · obtain ⟨it, _, hit⟩ := List.mem_map.mp h
      rw [← hit]
      simp [itemFields]
  refine ⟨h1, ?_⟩
  rw [h1, List.filter_cons]
  have hH : (decide ((headerFields d).head? = some (str "I"))) = false := rfl
  rw [hH]
  simp only [Bool.false_eq_true, if_false]
  refine List.filter_eq_self.mpr ?_
  intro r hr
  obtain ⟨it, _, hit⟩ := List.mem_map.mp hr
  rw [← hit]
  rfl
